import Mathlib

/-!
# HLKVDS segment packing: a shallow embedding of `src/DataHandle.cc`

The development embeds the segment buffer `SegmentData` (two cursors packing records
into one fixed-size byte buffer, expiry and the write check), the single-record buffer
`SegmentSlice`, the key/value view `KVSlice` (construction, digest computation, copies)
and the `Request` status fields, and proves the properties of the packing engine and of
the slices against them.

Conventions of the embedding:

* memory reached through a `char*` is a function from byte offset to byte value;
  `memcpy` overwrites a window of it;
* `uint32_t` quantities are natural numbers reduced modulo `2^32` at every
  assignment, exactly where the C++ code assigns them;
* `sizeof(SegmentOnDisk)`, `sizeof(DataHeader)` and the object representations of
  those two classes are declared in a header that is not part of the sources; they
  are the fields of `Layout`, and every theorem holds for every layout;
* the digest engine, the clock and the constants `EXPIRED_TIME` and `ALIGNED_SIZE` are
  outside the sources as well and are parameters of the definitions that use them;
* a method that dereferences a pointer returns `none` when the pointer is `NULL`.
-/

namespace kvdb

/-! ## Machine integers and memory -/

/-- Number of values of a `uint32_t`. -/
def UINT32 : Nat := 4294967296

/-- Number of values of a `uint16_t`. -/
def UINT16 : Nat := 65536

/-- Unsigned 32-bit subtraction `a - b`, wrapping around. -/
def u32sub (a b : Nat) : Nat := (a % UINT32 + (UINT32 - b % UINT32)) % UINT32

/-- Bytes reached through a pointer: offset from the pointer to byte value. -/
abbrev Mem := Nat → Nat

/-- The call `memcpy(&dst[off], src, n)`. -/
def memcpy (dst : Mem) (off : Nat) (src : Mem) (n : Nat) : Mem :=
  fun i => if off ≤ i ∧ i < off + n then src (i - off) else dst i

/-- A `const char*`: `none` is `NULL`. -/
abbrev CharPtr := Option Mem

/-- The bytes behind a `const char*` (a `NULL` pointer is read as zero bytes). -/
def CharPtr.bytes : CharPtr → Mem
  | none => fun _ => 0
  | some m => m

/-! ## Classes declared outside the sources -/

/-- A key digest (`Kvdb_Digest`), a fixed-width hash value. -/
structure Kvdb_Digest where
  value : List Nat
deriving DecidableEq

/-- The per-record header `DataHeader`, with the four fields its setters fill in
`SegmentSlice::Put`. -/
structure DataHeader where
  key_digest : Kvdb_Digest
  data_size : Nat
  data_offset : Nat
  next_header_offset : Nat

/-- Sizes and object representations fixed by the absent header `DataHandle.h`. -/
structure Layout where
  /-- The value of `sizeof(SegmentOnDisk)`. -/
  sizeofSegmentOnDisk : Nat
  /-- The value of `sizeof(DataHeader)`. -/
  sizeofDataHeader : Nat
  /-- Object representation of the temporary `SegmentOnDisk seg(num)`. -/
  segOnDisk : Nat → Mem
  /-- Object representation of a `DataHeader`. -/
  headerBytes : DataHeader → Mem

/-- What holds of `sizeof(DataHeader)` on any target: the class is not empty, and a
record header plus a 16-bit payload length fits a `uint32_t`. -/
def Layout.WF (L : Layout) : Prop :=
  0 < L.sizeofDataHeader ∧ L.sizeofDataHeader + UINT16 ≤ UINT32

instance (L : Layout) : Decidable L.WF := by
  unfold Layout.WF; infer_instance

/-- The segment manager, of which the segment only asks the segment size. -/
structure SegmentManager where
  segSize : Nat

/-- The call `sm->GetSegmentSize()`, a `uint32_t`. -/
def SegmentManager.GetSegmentSize (sm : SegmentManager) : Nat := sm.segSize % UINT32

/-! ## KVSlice -/

/-- The members of `KVSlice` initialised by its constructors in `DataHandle.cc`. The two
lengths are integers; the constructor and `SetKeyValue` store the `int` arguments
converted to the member types of `include/Segment.h` (`uint32_t keyLength_`,
`uint16_t dataLength_`), and the accessors below convert to their declared return
type. -/
structure KVSlice where
  m_key : CharPtr := none
  m_keyLen : Int := 0
  m_data : CharPtr := none
  m_dataLen : Int := 0
  m_digest : Option Kvdb_Digest := none
  m_Iscomputed : Bool := false

/-- The accessor `GetData()`. -/
def KVSlice.GetData (slice : KVSlice) : CharPtr := slice.m_data

/-- The accessor `uint16_t GetDataLen() const` of `include/Segment.h`. -/
def KVSlice.GetDataLen (slice : KVSlice) : Nat := (slice.m_dataLen % 65536).toNat

/-- Modelled from the spec: `Is4KData()` is declared in the absent `DataHandle.h`;
the spec says the aligned test "reports whether the value length equals the fixed
storage block size", and `put4K` copies exactly 4096 bytes. -/
def KVSlice.Is4KData (slice : KVSlice) : Bool := slice.GetDataLen == 4096

/-! ## SegmentData -/

/-- The members of `SegmentData` (the `sm_` pointer is only read by the constructor). -/
structure SegmentData where
  segId_ : Nat
  segSize_ : Nat
  creTime_ : Int
  headPos_ : Nat
  tailPos_ : Nat
  keyNum_ : Nat
  data_ : Mem
  completed_ : Bool

/-- The constructor `SegmentData(uint32_t seg_id, SegmentManager* sm)`; `now` is the
clock value read by `KVTime()` and `raw` the uninitialised contents of the new
buffer. -/
def SegmentData.ctor (L : Layout) (seg_id : Nat) (sm : SegmentManager) (now : Int)
    (raw : Mem) : SegmentData :=
  { segId_ := seg_id % UINT32
    segSize_ := sm.GetSegmentSize
    creTime_ := now
    headPos_ := L.sizeofSegmentOnDisk % UINT32
    tailPos_ := sm.GetSegmentSize
    keyNum_ := 0
    data_ := raw
    completed_ := false }

/-- The free space `uint32_t freeSize = tailPos_ - headPos_` of `isCanFit`. -/
def SegmentData.freeSize (s : SegmentData) : Nat := u32sub s.tailPos_ s.headPos_

/-- The required size `uint32_t needSize = slice->GetDataLen() + sizeof(DataHeader)`
of `isCanFit`. -/
def SegmentData.needSize (L : Layout) (slice : KVSlice) : Nat :=
  (slice.GetDataLen + L.sizeofDataHeader) % UINT32

/-- The fit check `isCanFit`. -/
def SegmentData.isCanFit (s : SegmentData) (L : Layout) (slice : KVSlice) : Bool :=
  decide (s.freeSize > SegmentData.needSize L slice)

/-- The tail path `put4K`. -/
def SegmentData.put4K (s : SegmentData) (L : Layout) (slice : KVSlice) (header : DataHeader) :
    SegmentData :=
  let d1 := memcpy s.data_ s.headPos_ (L.headerBytes header) L.sizeofDataHeader
  let d2 := memcpy d1 (u32sub s.tailPos_ 4096) slice.GetData.bytes 4096
  { s with
    data_ := d2
    headPos_ := (s.headPos_ + L.sizeofDataHeader) % UINT32
    tailPos_ := u32sub s.tailPos_ 4096
    keyNum_ := (s.keyNum_ + 1) % UINT32 }

/-- The head path `putNon4K`. -/
def SegmentData.putNon4K (s : SegmentData) (L : Layout) (slice : KVSlice) (header : DataHeader) :
    SegmentData :=
  let d1 := memcpy s.data_ s.headPos_ (L.headerBytes header) L.sizeofDataHeader
  let h1 := (s.headPos_ + L.sizeofDataHeader) % UINT32
  let d2 := memcpy d1 h1 slice.GetData.bytes slice.GetDataLen
  { s with
    data_ := d2
    headPos_ := (h1 + slice.GetDataLen) % UINT32
    keyNum_ := (s.keyNum_ + 1) % UINT32 }

/-- The method `Put`: the returned flag and the segment after the call. -/
def SegmentData.Put (s : SegmentData) (L : Layout) (slice : KVSlice) (header : DataHeader) :
    Bool × SegmentData :=
  if !s.isCanFit L slice then (false, s)
  else if slice.Is4KData then (true, s.put4K L slice header)
  else (true, s.putNon4K L slice header)

/-- The segment header write `fillSegHead`. -/
def SegmentData.fillSegHead (s : SegmentData) (L : Layout) : SegmentData :=
  { s with data_ := memcpy s.data_ 0 (L.segOnDisk s.keyNum_) L.sizeofSegmentOnDisk }

/-- The method `Complete`. -/
def SegmentData.Complete (s : SegmentData) (L : Layout) : SegmentData :=
  { s.fillSegHead L with completed_ := true }

/-- The method `GetCompleteSeg`: `none` is `NULL`. -/
def SegmentData.GetCompleteSeg (s : SegmentData) : Option Mem :=
  if !s.completed_ then none else some s.data_

/-! ## Sequences of calls and the places of the accepted records -/

/-- One call on a segment: `Put(slice, header)` or `Complete()`. -/
inductive Op where
  | put (slice : KVSlice) (header : DataHeader)
  | complete

/-- The segment after one call. -/
def SegmentData.step (s : SegmentData) (L : Layout) : Op → SegmentData
  | .put slice header => (s.Put L slice header).2
  | .complete => s.Complete L

/-- The segment after a sequence of calls, first call first. -/
def SegmentData.run (s : SegmentData) (L : Layout) : List Op → SegmentData
  | [] => s
  | op :: ops => (s.step L op).run L ops

/-- Where an accepted `Put` copies a record: `headOff` is the destination of the
header `memcpy` (both paths copy the header to `&data_[headPos_]`), `dataOff` the
destination of the payload `memcpy` (`&data_[tailPos_ - 4096]` in `put4K`,
`&data_[headPos_]` after the header in `putNon4K`). -/
structure Placement where
  slice : KVSlice
  header : DataHeader
  headOff : Nat
  dataOff : Nat

/-- The place a `Put(slice, header)` accepted in state `s` uses. -/
def SegmentData.placement (s : SegmentData) (L : Layout) (slice : KVSlice)
    (header : DataHeader) : Placement :=
  { slice := slice
    header := header
    headOff := s.headPos_
    dataOff := if slice.Is4KData then u32sub s.tailPos_ 4096
               else (s.headPos_ + L.sizeofDataHeader) % UINT32 }

/-- The places of the records accepted during a sequence of calls, in call order. -/
def SegmentData.placed (s : SegmentData) (L : Layout) : List Op → List Placement
  | [] => []
  | .put slice header :: ops =>
      if (s.Put L slice header).1 then
        s.placement L slice header :: (s.Put L slice header).2.placed L ops
      else (s.Put L slice header).2.placed L ops
  | .complete :: ops => (s.Complete L).placed L ops

/-- The size a placed record takes from the free space: header plus payload. -/
def Placement.size (L : Layout) (p : Placement) : Nat :=
  L.sizeofDataHeader + p.slice.GetDataLen

/-- The cursor invariant `sizeof(SegmentOnDisk) <= headPos_ <= tailPos_ <= segSize_`. -/
def SegmentData.Inv (s : SegmentData) (L : Layout) : Prop :=
  L.sizeofSegmentOnDisk ≤ s.headPos_ ∧ s.headPos_ ≤ s.tailPos_ ∧ s.tailPos_ ≤ s.segSize_

instance (s : SegmentData) (L : Layout) : Decidable (s.Inv L) := by
  unfold SegmentData.Inv; infer_instance

/-! ## Request -/

/-- The data members of `Request` set by its constructors (the mutex and the
condition variable only bracket the assignments below). -/
structure Request where
  m_done : Int
  m_write_stat : Bool
  m_slice : Option KVSlice

/-- The constructor `Request(KVSlice& slice)`. -/
def Request.ctor (slice : KVSlice) : Request :=
  { m_done := 0, m_write_stat := false, m_slice := some slice }

/-- The method `Done`. -/
def Request.Done (r : Request) : Request := { r with m_done := 1 }

/-- The method `SetState`. -/
def Request.SetState (r : Request) (state : Bool) : Request :=
  { r with m_write_stat := state }

/-- Modelled from the spec: the status accessor of this `Request` is declared in the
absent `DataHandle.h`; it reports whether the write status is success, which for the
boolean `m_write_stat` of `DataHandle.cc` is the member itself. -/
def Request.GetWriteStat (r : Request) : Bool := r.m_write_stat

/-- The buffer `buf` holds the record of `p`: the header bytes at `p.headOff` and the
payload bytes at `p.dataOff`. -/
def Placement.StoredIn (L : Layout) (p : Placement) (buf : Mem) : Prop :=
  (∀ i, i < L.sizeofDataHeader → buf (p.headOff + i) = L.headerBytes p.header i) ∧
    (∀ i, i < p.slice.GetDataLen → buf (p.dataOff + i) = p.slice.GetData.bytes i)

/-- The record of `p` lies in the part of the window `[h0, t0)` that is outside the
later window `[h1, t1)`: its header in the head region `[h0, h1)`, its payload either
in the tail region `[t1, t0)` (aligned) or right behind its header (not aligned). -/
def Placement.Within (L : Layout) (p : Placement) (h0 h1 t1 t0 : Nat) : Prop :=
  h0 ≤ p.headOff ∧ p.headOff + L.sizeofDataHeader ≤ h1 ∧
    ((p.slice.Is4KData = true ∧ p.slice.GetDataLen = 4096 ∧ t1 ≤ p.dataOff ∧
        p.dataOff + 4096 ≤ t0) ∨
      (p.slice.Is4KData = false ∧ p.dataOff = p.headOff + L.sizeofDataHeader ∧
        p.dataOff + p.slice.GetDataLen ≤ h1))

/-! ## KVSlice: construction, digest and copies -/

/-- The accessor `GetKey()`. -/
def KVSlice.GetKey (slice : KVSlice) : CharPtr := slice.m_key

/-- The accessor `uint16_t GetKeyLen() const` of `include/Segment.h`. -/
def KVSlice.GetKeyLen (slice : KVSlice) : Nat := (slice.m_keyLen % 65536).toNat

/-- The accessor `GetDigest()`, which returns `*m_digest`: `none` stands for the
dereference of a `NULL` digest pointer. -/
def KVSlice.GetDigest (slice : KVSlice) : Option Kvdb_Digest := slice.m_digest

/-- Modelled from the spec: `IsDigestComputed()` is declared in the absent
`DataHandle.h`; it reports the cached flag the spec calls "the cached flag". -/
def KVSlice.IsDigestComputed (slice : KVSlice) : Bool := slice.m_Iscomputed

/-- The test `IsAlignedData()` of `include/Segment.h`, `GetDataLen() == ALIGNED_SIZE`;
the constant `ALIGNED_SIZE` is defined outside the sources and is a parameter. -/
def KVSlice.IsAlignedData (ALIGNED_SIZE : Nat) (slice : KVSlice) : Bool :=
  slice.GetDataLen == ALIGNED_SIZE

/-- The default constructor `KVSlice()`. -/
def KVSlice.default : KVSlice :=
  { m_key := none, m_keyLen := 0, m_data := none, m_dataLen := 0, m_digest := none,
    m_Iscomputed := false }

/-- The constructor `KVSlice(const char* key, int key_len, const char* data,
int data_len)`: the key length is stored in a `uint32_t`, the data length in a
`uint16_t`. -/
def KVSlice.ctor (key : CharPtr) (key_len : Int) (data : CharPtr) (data_len : Int) :
    KVSlice :=
  { m_key := key, m_keyLen := key_len % 4294967296, m_data := data,
    m_dataLen := data_len % 65536, m_digest := none, m_Iscomputed := false }

/-- The method `SetKeyValue`: the key length is stored in a `uint32_t`, the data length
in a `uint16_t`. -/
def KVSlice.SetKeyValue (slice : KVSlice) (key : CharPtr) (key_len : Int) (data : CharPtr)
    (data_len : Int) : KVSlice :=
  { slice with
    m_Iscomputed := false
    m_keyLen := key_len % 4294967296
    m_dataLen := data_len % 65536
    m_key := key
    m_data := data }

/-- The digest engine `KeyDigestHandle::ComputeDigest(&vkey, digest)`, which is not part
of the sources: from the key bytes and the key length to the returned flag and the
contents it leaves in the digest object. -/
abbrev DigestEngine := Mem → Int → Bool × Kvdb_Digest

/-- What one call of `KVSlice::ComputeDigest` yields: the returned flag, the slice after
the call, and how many times the call invoked the digest engine. -/
structure DigestCall where
  ret : Bool
  slice : KVSlice
  engineCalls : Nat

/-- The method `ComputeDigest`: a `NULL` key returns false at once; otherwise a new
digest object replaces `m_digest`, the engine fills it, and the flag is set only when
the engine reports success. -/
def KVSlice.ComputeDigest (E : DigestEngine) (slice : KVSlice) : DigestCall :=
  match slice.m_key with
  | none => { ret := false, slice := slice, engineCalls := 0 }
  | some k =>
    if !(E k slice.m_keyLen).1 then
      { ret := false
        slice := { slice with m_digest := some (E k slice.m_keyLen).2 }
        engineCalls := 1 }
    else
      { ret := true
        slice := { slice with m_digest := some (E k slice.m_keyLen).2, m_Iscomputed := true }
        engineCalls := 1 }

/-- The helper `copy_helper`, run on the object `self`; it assigns through `*m_digest`
and reads `*toBeCopied.m_digest`, so the result is `none` (a `NULL` pointer is
dereferenced) unless both digest pointers are set. -/
def KVSlice.copy_helper (self toBeCopied : KVSlice) : Option KVSlice :=
  match self.m_digest, toBeCopied.GetDigest with
  | some _, some d =>
    some { m_keyLen := toBeCopied.GetKeyLen
           m_dataLen := toBeCopied.GetDataLen
           m_key := toBeCopied.GetKey
           m_data := toBeCopied.GetData
           m_digest := some d
           m_Iscomputed := toBeCopied.IsDigestComputed }
  | _, _ => none

/-- The copy constructor `KVSlice(const KVSlice& toBeCopied)`: every member is
initialised to `NULL`, 0 or false, then `copy_helper` runs. -/
def KVSlice.copyCtor (toBeCopied : KVSlice) : Option KVSlice :=
  KVSlice.copy_helper
    { m_key := none, m_keyLen := 0, m_data := none, m_dataLen := 0, m_digest := none,
      m_Iscomputed := false }
    toBeCopied

/-- The copy assignment `operator=`. -/
def KVSlice.assign (self toBeCopied : KVSlice) : Option KVSlice :=
  KVSlice.copy_helper self toBeCopied

/-- One call on a slice: `SetKeyValue(key, key_len, data, data_len)` or
`ComputeDigest()`. -/
inductive SliceOp where
  | setKeyValue (key : CharPtr) (key_len : Int) (data : CharPtr) (data_len : Int)
  | computeDigest

/-- The slice after a sequence of calls, first call first. -/
def KVSlice.runOps (E : DigestEngine) (slice : KVSlice) : List SliceOp → KVSlice
  | [] => slice
  | .setKeyValue key key_len data data_len :: ops =>
      (slice.SetKeyValue key key_len data data_len).runOps E ops
  | .computeDigest :: ops => (slice.ComputeDigest E).slice.runOps E ops

/-- When the flag is set, the stored digest is what the engine computes, with success,
from the current key and key length. -/
def KVSlice.DigestValid (E : DigestEngine) (slice : KVSlice) : Prop :=
  slice.m_Iscomputed = true →
    ∃ k, slice.m_key = some k ∧ (E k slice.m_keyLen).1 = true ∧
      slice.m_digest = some (E k slice.m_keyLen).2

/-! ## SegmentData: expiry -/

/-- The test `isExpire`; `nowTime` is the clock value read by `KVTime nowTime`, time
being counted in exact clock ticks, and `EXPIRED_TIME` the timeout constant, which is
defined outside the sources. -/
def SegmentData.isExpire (s : SegmentData) (EXPIRED_TIME nowTime : Int) : Bool :=
  decide (nowTime - s.creTime_ > EXPIRED_TIME)

/-- The method `IsCanWrite`. -/
def SegmentData.IsCanWrite (s : SegmentData) (L : Layout) (EXPIRED_TIME nowTime : Int)
    (slice : KVSlice) : Bool :=
  if s.isExpire EXPIRED_TIME nowTime then false else s.isCanFit L slice

/-! ## SegmentSlice -/

/-- The members of `SegmentSlice` (`m_sm` is only asked the segment size; the unused
result of `ComputeSegOffsetFromId` is left out). -/
structure SegmentSlice where
  m_id : Nat
  m_seg_size : Nat
  m_data : Mem
  m_len : Nat

/-- The constructor `SegmentSlice(uint32_t seg_id, SegmentManager* sm)`; `raw` is the
uninitialised contents of the new buffer. -/
def SegmentSlice.ctor (seg_id : Nat) (sm : SegmentManager) (raw : Mem) : SegmentSlice :=
  { m_id := seg_id % UINT32
    m_seg_size := sm.GetSegmentSize
    m_data := raw
    m_len := 0 }

/-- The call `memcpy(&buf[off], src, n)` writes only inside the allocation
`new char[cap]` that `buf` points to. -/
def inAllocation (cap off n : Nat) : Bool := decide (off + n ≤ cap)

/-- The method `SegmentSlice::Put`: the returned flag, the object after the call, the
header filled through the reference, and whether the three `memcpy` calls stayed inside
the buffer `new char[m_seg_size]`; `seg_ondisk` is the object representation of the
default-constructed `SegmentOnDisk seg_ondisk`. The method compares nothing with
`m_seg_size`: when the last component is false the bytes shown at offsets from
`m_seg_size` on are written outside the buffer. The result is `none` when
`slice->GetDigest()` dereferences a `NULL` digest pointer. -/
def SegmentSlice.Put (ss : SegmentSlice) (L : Layout) (seg_ondisk : Mem) (slice : KVSlice)
    (header : DataHeader) : Option (Bool × SegmentSlice × DataHeader × Bool) :=
  match slice.GetDigest with
  | none => none
  | some digest =>
    let head_offset := L.sizeofSegmentOnDisk % UINT32
    let data_offset := (head_offset + L.sizeofDataHeader) % UINT32
    let next_offset := (data_offset + slice.GetDataLen) % UINT32
    let header1 : DataHeader :=
      { header with
        key_digest := digest
        data_size := slice.GetDataLen
        data_offset := data_offset
        next_header_offset := next_offset }
    let d1 := memcpy ss.m_data 0 seg_ondisk L.sizeofSegmentOnDisk
    let d2 := memcpy d1 L.sizeofSegmentOnDisk (L.headerBytes header1) L.sizeofDataHeader
    let d3 := memcpy d2 (L.sizeofSegmentOnDisk + L.sizeofDataHeader) slice.GetData.bytes
      slice.GetDataLen
    some (true,
      { ss with
        m_len := (L.sizeofSegmentOnDisk + L.sizeofDataHeader + slice.GetDataLen) % UINT32
        m_data := d3 },
      header1,
      inAllocation ss.m_seg_size 0 L.sizeofSegmentOnDisk &&
        inAllocation ss.m_seg_size L.sizeofSegmentOnDisk L.sizeofDataHeader &&
        inAllocation ss.m_seg_size (L.sizeofSegmentOnDisk + L.sizeofDataHeader)
          slice.GetDataLen)

/-! ## Example layout and inputs used to instantiate the theorems -/

/-- A layout with a 32-byte segment header (key count in its last four bytes, low
byte first) and a 32-byte record header (digest bytes, then the payload size). -/
def exLayout : Layout :=
  { sizeofSegmentOnDisk := 32
    sizeofDataHeader := 32
    segOnDisk := fun num i => if 28 ≤ i ∧ i < 32 then (num / 256 ^ (i - 28)) % 256 else 0
    headerBytes := fun h i =>
      if i < 20 then h.key_digest.value.getD i 0
      else if i < 22 then (h.data_size / 256 ^ (i - 20)) % 256 else 0 }

/-- A slice carrying `n` payload bytes `b, b+1, ...` under the one-byte key `7`. -/
def exSlice (n b : Nat) : KVSlice :=
  { m_key := some (fun _ => 7)
    m_keyLen := 1
    m_data := some (fun i => (b + i) % 256)
    m_dataLen := n }

/-- A record header announcing `n` payload bytes. -/
def exHeader (n : Nat) : DataHeader :=
  { key_digest := { value := [1, 2, 3] }
    data_size := n
    data_offset := 0
    next_header_offset := 0 }

/-- A fresh segment of `size` bytes over the example layout. -/
def exSeg (size : Nat) : SegmentData :=
  SegmentData.ctor exLayout 1 { segSize := size } 0 (fun _ => 170)

/-- A sequence of calls on an 8192-byte segment: a 10-byte record, an aligned record, a
record that is too large, a commit, and a 20-byte record. -/
def exOps : List Op :=
  [Op.put (exSlice 10 0) (exHeader 10), Op.put (exSlice 4096 5) (exHeader 4096),
   Op.put (exSlice 9000 0) (exHeader 9000), Op.complete,
   Op.put (exSlice 20 9) (exHeader 20)]

/-- The manager of 8192-byte segments. -/
def exManager : SegmentManager := { segSize := 8192 }

/-- A digest engine for the examples: it fails on a key of length zero or less and
otherwise returns the first key bytes as the digest. -/
def exEngine : DigestEngine :=
  fun k n => if n ≤ 0 then (false, { value := [] })
             else (true, { value := (List.range (min n.toNat 4)).map k })

/-- A slice over a three-byte key and an `n`-byte value, as the constructor builds it. -/
def exKV (n : Int) : KVSlice :=
  KVSlice.ctor (some (fun i => 65 + i)) 3 (some (fun i => i % 256)) n

/-! ## Window lemmas for `memcpy` -/

theorem memcpy_inside (dst src : Mem) (off n i : Nat) (h : i < n) :
    memcpy dst off src n (off + i) = src i := by
  simp [memcpy, h]

theorem memcpy_outside (dst src : Mem) (off n i : Nat) (h : i < off ∨ off + n ≤ i) :
    memcpy dst off src n i = dst i := by
  have : ¬ (off ≤ i ∧ i < off + n) := by omega
  simp [memcpy, this]

/-! ## The fit check and the two placement paths under the cursor invariant -/

theorem GetDataLen_lt (slice : KVSlice) : slice.GetDataLen < UINT16 := by
  unfold KVSlice.GetDataLen UINT16
  omega

theorem Is4KData_iff (slice : KVSlice) : slice.Is4KData = true ↔ slice.GetDataLen = 4096 := by
  simp [KVSlice.Is4KData]

theorem freeSize_eq (s : SegmentData) (h1 : s.headPos_ ≤ s.tailPos_)
    (h2 : s.tailPos_ < UINT32) : s.freeSize = s.tailPos_ - s.headPos_ := by
  unfold SegmentData.freeSize u32sub
  unfold UINT32 at *
  omega

theorem needSize_eq (L : Layout) (hL : L.WF) (slice : KVSlice) :
    SegmentData.needSize L slice = slice.GetDataLen + L.sizeofDataHeader := by
  have hlen := GetDataLen_lt slice
  obtain ⟨_, hb⟩ := hL
  unfold SegmentData.needSize
  apply Nat.mod_eq_of_lt
  omega

theorem isCanFit_iff (L : Layout) (hL : L.WF) (s : SegmentData) (slice : KVSlice)
    (h1 : s.headPos_ ≤ s.tailPos_) (h2 : s.tailPos_ < UINT32) :
    s.isCanFit L slice = true ↔
      slice.GetDataLen + L.sizeofDataHeader < s.tailPos_ - s.headPos_ := by
  unfold SegmentData.isCanFit
  rw [freeSize_eq s h1 h2, needSize_eq L hL slice]
  simp

theorem Put_rejected (L : Layout) (s : SegmentData) (slice : KVSlice) (header : DataHeader)
    (h : s.isCanFit L slice = false) : s.Put L slice header = (false, s) := by
  simp [SegmentData.Put, h]

theorem Put_4K (L : Layout) (s : SegmentData) (slice : KVSlice) (header : DataHeader)
    (h : s.isCanFit L slice = true) (h4 : slice.Is4KData = true) :
    s.Put L slice header = (true, s.put4K L slice header) := by
  simp [SegmentData.Put, h, h4]

theorem Put_non4K (L : Layout) (s : SegmentData) (slice : KVSlice) (header : DataHeader)
    (h : s.isCanFit L slice = true) (h4 : slice.Is4KData = false) :
    s.Put L slice header = (true, s.putNon4K L slice header) := by
  simp [SegmentData.Put, h, h4]

theorem Put_fst (L : Layout) (s : SegmentData) (slice : KVSlice) (header : DataHeader) :
    (s.Put L slice header).1 = s.isCanFit L slice := by
  unfold SegmentData.Put
  cases s.isCanFit L slice <;> cases slice.Is4KData <;> simp

theorem put4K_cursors (L : Layout) (hL : L.WF) (s : SegmentData) (slice : KVSlice)
    (header : DataHeader) (h1 : s.headPos_ ≤ s.tailPos_) (h2 : s.tailPos_ < UINT32)
    (hfit : s.isCanFit L slice = true) (h4 : slice.Is4KData = true) :
    (s.put4K L slice header).headPos_ = s.headPos_ + L.sizeofDataHeader ∧
      (s.put4K L slice header).tailPos_ = s.tailPos_ - 4096 ∧
      s.headPos_ + L.sizeofDataHeader + 4096 < s.tailPos_ ∧
      u32sub s.tailPos_ 4096 = s.tailPos_ - 4096 := by
  have hfit2 := (isCanFit_iff L hL s slice h1 h2).mp hfit
  have hlen := (Is4KData_iff slice).mp h4
  simp only [SegmentData.put4K, u32sub]
  unfold UINT32 at *
  omega

theorem putNon4K_cursors (L : Layout) (hL : L.WF) (s : SegmentData) (slice : KVSlice)
    (header : DataHeader) (h1 : s.headPos_ ≤ s.tailPos_) (h2 : s.tailPos_ < UINT32)
    (hfit : s.isCanFit L slice = true) :
    (s.putNon4K L slice header).headPos_
        = s.headPos_ + L.sizeofDataHeader + slice.GetDataLen ∧
      (s.putNon4K L slice header).tailPos_ = s.tailPos_ ∧
      s.headPos_ + L.sizeofDataHeader + slice.GetDataLen < s.tailPos_ ∧
      (s.headPos_ + L.sizeofDataHeader) % UINT32 = s.headPos_ + L.sizeofDataHeader := by
  have hfit2 := (isCanFit_iff L hL s slice h1 h2).mp hfit
  have e1 : (s.headPos_ + L.sizeofDataHeader) % UINT32
      = s.headPos_ + L.sizeofDataHeader := by
    apply Nat.mod_eq_of_lt
    omega
  have e2 : (s.headPos_ + L.sizeofDataHeader + slice.GetDataLen) % UINT32
      = s.headPos_ + L.sizeofDataHeader + slice.GetDataLen := by
    apply Nat.mod_eq_of_lt
    omega
  simp only [SegmentData.putNon4K, e1, e2, true_and, and_true]
  omega

theorem Put_frame (L : Layout) (s : SegmentData) (slice : KVSlice) (header : DataHeader) :
    (s.Put L slice header).2.segSize_ = s.segSize_ ∧
      (s.Put L slice header).2.segId_ = s.segId_ ∧
      (s.Put L slice header).2.creTime_ = s.creTime_ ∧
      (s.Put L slice header).2.completed_ = s.completed_ := by
  unfold SegmentData.Put
  cases s.isCanFit L slice <;> cases slice.Is4KData <;>
    simp [SegmentData.put4K, SegmentData.putNon4K]

theorem Complete_frame (L : Layout) (s : SegmentData) :
    (s.Complete L).segSize_ = s.segSize_ ∧ (s.Complete L).headPos_ = s.headPos_ ∧
      (s.Complete L).tailPos_ = s.tailPos_ ∧ (s.Complete L).keyNum_ = s.keyNum_ ∧
      (s.Complete L).completed_ = true := by
  simp [SegmentData.Complete, SegmentData.fillSegHead]

theorem Put_Inv (L : Layout) (hL : L.WF) (s : SegmentData) (slice : KVSlice)
    (header : DataHeader) (hI : s.Inv L) (hb : s.segSize_ < UINT32) :
    (s.Put L slice header).2.Inv L := by
  obtain ⟨i1, i2, i3⟩ := hI
  have h2 : s.tailPos_ < UINT32 := by omega
  cases hfit : s.isCanFit L slice with
  | false =>
    rw [Put_rejected L s slice header hfit]
    exact ⟨i1, i2, i3⟩
  | true =>
    cases h4 : slice.Is4KData with
    | true =>
      rw [Put_4K L s slice header hfit h4]
      obtain ⟨c1, c2, c3, _⟩ := put4K_cursors L hL s slice header i2 h2 hfit h4
      have c4 : (s.put4K L slice header).segSize_ = s.segSize_ := rfl
      show _ ≤ (s.put4K L slice header).headPos_ ∧
        (s.put4K L slice header).headPos_ ≤ (s.put4K L slice header).tailPos_ ∧
        (s.put4K L slice header).tailPos_ ≤ (s.put4K L slice header).segSize_
      omega
    | false =>
      rw [Put_non4K L s slice header hfit h4]
      obtain ⟨c1, c2, c3, _⟩ := putNon4K_cursors L hL s slice header i2 h2 hfit
      have c4 : (s.putNon4K L slice header).segSize_ = s.segSize_ := rfl
      show _ ≤ (s.putNon4K L slice header).headPos_ ∧
        (s.putNon4K L slice header).headPos_ ≤ (s.putNon4K L slice header).tailPos_ ∧
        (s.putNon4K L slice header).tailPos_ ≤ (s.putNon4K L slice header).segSize_
      omega

theorem step_Inv (L : Layout) (hL : L.WF) (s : SegmentData) (op : Op) (hI : s.Inv L)
    (hb : s.segSize_ < UINT32) :
    (s.step L op).Inv L ∧ (s.step L op).segSize_ = s.segSize_ := by
  cases op with
  | put slice header =>
    exact ⟨Put_Inv L hL s slice header hI hb, (Put_frame L s slice header).1⟩
  | complete =>
    obtain ⟨c1, c2, c3, _, _⟩ := Complete_frame L s
    obtain ⟨i1, i2, i3⟩ := hI
    refine ⟨?_, c1⟩
    unfold SegmentData.Inv
    simp only [SegmentData.step]
    omega

theorem run_Inv (L : Layout) (hL : L.WF) (ops : List Op) :
    ∀ s : SegmentData, s.Inv L → s.segSize_ < UINT32 →
      (s.run L ops).Inv L ∧ (s.run L ops).segSize_ = s.segSize_ := by
  induction ops with
  | nil => intro s hI _; exact ⟨hI, rfl⟩
  | cons op ops ih =>
    intro s hI hb
    obtain ⟨j1, j2⟩ := step_Inv L hL s op hI hb
    obtain ⟨k1, k2⟩ := ih (s.step L op) j1 (by omega)
    exact ⟨k1, by rw [← j2]; exact k2⟩

theorem GetSegmentSize_lt (sm : SegmentManager) : sm.GetSegmentSize < UINT32 := by
  unfold SegmentManager.GetSegmentSize UINT32
  omega

theorem ctor_Inv (L : Layout) (seg_id : Nat) (sm : SegmentManager) (now : Int) (raw : Mem)
    (hsz : L.sizeofSegmentOnDisk ≤ sm.GetSegmentSize) :
    (SegmentData.ctor L seg_id sm now raw).Inv L ∧
      (SegmentData.ctor L seg_id sm now raw).headPos_ = L.sizeofSegmentOnDisk ∧
      (SegmentData.ctor L seg_id sm now raw).tailPos_ = sm.GetSegmentSize ∧
      (SegmentData.ctor L seg_id sm now raw).segSize_ = sm.GetSegmentSize := by
  have hlt := GetSegmentSize_lt sm
  have e : L.sizeofSegmentOnDisk % UINT32 = L.sizeofSegmentOnDisk :=
    Nat.mod_eq_of_lt (by omega)
  simp only [SegmentData.ctor, SegmentData.Inv, e, and_true, true_and]
  omega

/-! ## What one call does to the buffer -/

theorem put4K_data (L : Layout) (s : SegmentData) (slice : KVSlice) (header : DataHeader) :
    (s.put4K L slice header).data_
      = memcpy (memcpy s.data_ s.headPos_ (L.headerBytes header) L.sizeofDataHeader)
          (u32sub s.tailPos_ 4096) slice.GetData.bytes 4096 := by
  simp only [SegmentData.put4K]

theorem putNon4K_data (L : Layout) (s : SegmentData) (slice : KVSlice)
    (header : DataHeader) :
    (s.putNon4K L slice header).data_
      = memcpy (memcpy s.data_ s.headPos_ (L.headerBytes header) L.sizeofDataHeader)
          ((s.headPos_ + L.sizeofDataHeader) % UINT32) slice.GetData.bytes
          slice.GetDataLen := by
  simp only [SegmentData.putNon4K]


/-- No call moves a cursor outward or touches a record byte outside the free window
`[headPos_, tailPos_)`; only `Complete` writes below `sizeof(SegmentOnDisk)`. -/
theorem step_outside (L : Layout) (hL : L.WF) (s : SegmentData) (op : Op) (hI : s.Inv L)
    (hb : s.segSize_ < UINT32) :
    s.headPos_ ≤ (s.step L op).headPos_ ∧ (s.step L op).tailPos_ ≤ s.tailPos_ ∧
      ∀ i, L.sizeofSegmentOnDisk ≤ i → i < s.headPos_ ∨ s.tailPos_ ≤ i →
        (s.step L op).data_ i = s.data_ i := by
  obtain ⟨i1, i2, i3⟩ := hI
  have h2 : s.tailPos_ < UINT32 := by omega
  cases op with
  | complete =>
    refine ⟨Nat.le_refl _, Nat.le_refl _, ?_⟩
    intro i hi _
    show memcpy s.data_ 0 (L.segOnDisk s.keyNum_) L.sizeofSegmentOnDisk i = s.data_ i
    exact memcpy_outside _ _ _ _ _ (by omega)
  | put slice header =>
    show s.headPos_ ≤ (s.Put L slice header).2.headPos_ ∧
      (s.Put L slice header).2.tailPos_ ≤ s.tailPos_ ∧
      ∀ i, L.sizeofSegmentOnDisk ≤ i → i < s.headPos_ ∨ s.tailPos_ ≤ i →
        (s.Put L slice header).2.data_ i = s.data_ i
    cases hfit : s.isCanFit L slice with
    | false =>
      rw [Put_rejected L s slice header hfit]
      exact ⟨Nat.le_refl _, Nat.le_refl _, fun _ _ _ => rfl⟩
    | true =>
      cases h4 : slice.Is4KData with
      | true =>
        rw [Put_4K L s slice header hfit h4]
        obtain ⟨c1, c2, c3, c4⟩ := put4K_cursors L hL s slice header i2 h2 hfit h4
        refine ⟨by show _ ≤ (s.put4K L slice header).headPos_; omega,
          by show (s.put4K L slice header).tailPos_ ≤ _; omega, ?_⟩
        intro i _ hi
        show (s.put4K L slice header).data_ i = s.data_ i
        rw [put4K_data, memcpy_outside _ _ _ _ _ (by omega), memcpy_outside _ _ _ _ _ (by omega)]
      | false =>
        rw [Put_non4K L s slice header hfit h4]
        obtain ⟨c1, c2, c3, c4⟩ := putNon4K_cursors L hL s slice header i2 h2 hfit
        refine ⟨by show _ ≤ (s.putNon4K L slice header).headPos_; omega,
          by show (s.putNon4K L slice header).tailPos_ ≤ _; omega, ?_⟩
        intro i _ hi
        show (s.putNon4K L slice header).data_ i = s.data_ i
        rw [putNon4K_data, memcpy_outside _ _ _ _ _ (by omega), memcpy_outside _ _ _ _ _ (by omega)]

/-- An accepted `Put`: how far each cursor moves, where the record lies inside the old
free window, and that the buffer holds the header and the payload there. -/
theorem Put_accepted (L : Layout) (hL : L.WF) (s : SegmentData) (slice : KVSlice)
    (header : DataHeader) (hI : s.Inv L) (hb : s.segSize_ < UINT32)
    (hacc : (s.Put L slice header).1 = true) :
    (s.placement L slice header).headOff = s.headPos_ ∧
      ((slice.Is4KData = true ∧ slice.GetDataLen = 4096 ∧
          (s.Put L slice header).2.headPos_ = s.headPos_ + L.sizeofDataHeader ∧
          (s.Put L slice header).2.tailPos_ + 4096 = s.tailPos_ ∧
          (s.placement L slice header).dataOff = (s.Put L slice header).2.tailPos_) ∨
        (slice.Is4KData = false ∧
          (s.Put L slice header).2.headPos_
            = s.headPos_ + L.sizeofDataHeader + slice.GetDataLen ∧
          (s.Put L slice header).2.tailPos_ = s.tailPos_ ∧
          (s.placement L slice header).dataOff = s.headPos_ + L.sizeofDataHeader)) ∧
      (s.Put L slice header).2.headPos_ ≤ (s.Put L slice header).2.tailPos_ ∧
      (s.Put L slice header).2.keyNum_ = (s.keyNum_ + 1) % UINT32 ∧
      (∀ i, i < L.sizeofDataHeader →
        (s.Put L slice header).2.data_ (s.headPos_ + i) = L.headerBytes header i) ∧
      (∀ i, i < slice.GetDataLen →
        (s.Put L slice header).2.data_ ((s.placement L slice header).dataOff + i)
          = slice.GetData.bytes i) := by
  obtain ⟨i1, i2, i3⟩ := hI
  have h2 : s.tailPos_ < UINT32 := by omega
  rw [Put_fst] at hacc
  refine ⟨rfl, ?_⟩
  cases h4 : slice.Is4KData with
  | true =>
    have hlen := (Is4KData_iff slice).mp h4
    rw [Put_4K L s slice header hacc h4]
    obtain ⟨c1, c2, c3, c4⟩ := put4K_cursors L hL s slice header i2 h2 hacc h4
    have ed : (s.placement L slice header).dataOff = u32sub s.tailPos_ 4096 := by
      simp [SegmentData.placement, h4]
    have et : (s.put4K L slice header).tailPos_ = u32sub s.tailPos_ 4096 := rfl
    refine ⟨Or.inl ⟨rfl, hlen, c1, by show (s.put4K L slice header).tailPos_ + 4096 = _; omega,
      by show _ = (s.put4K L slice header).tailPos_; omega⟩,
      by show (s.put4K L slice header).headPos_ ≤ (s.put4K L slice header).tailPos_; omega,
      rfl, ?_, ?_⟩
    · intro i hi
      show (s.put4K L slice header).data_ (s.headPos_ + i) = _
      rw [put4K_data, memcpy_outside _ _ _ _ _ (by omega), memcpy_inside _ _ _ _ _ hi]
    · intro i hi
      rw [ed]
      show (s.put4K L slice header).data_ (u32sub s.tailPos_ 4096 + i) = _
      rw [put4K_data, memcpy_inside _ _ _ _ _ (by omega)]
  | false =>
    rw [Put_non4K L s slice header hacc h4]
    obtain ⟨c1, c2, c3, c4⟩ := putNon4K_cursors L hL s slice header i2 h2 hacc
    have ed : (s.placement L slice header).dataOff
        = (s.headPos_ + L.sizeofDataHeader) % UINT32 := by
      simp [SegmentData.placement, h4]
    refine ⟨Or.inr ⟨rfl, c1, c2, by omega⟩,
      by show (s.putNon4K L slice header).headPos_ ≤ (s.putNon4K L slice header).tailPos_
         omega,
      rfl, ?_, ?_⟩
    · intro i hi
      show (s.putNon4K L slice header).data_ (s.headPos_ + i) = _
      rw [putNon4K_data, memcpy_outside _ _ _ _ _ (by omega), memcpy_inside _ _ _ _ _ hi]
    · intro i hi
      rw [ed]
      show (s.putNon4K L slice header).data_
        ((s.headPos_ + L.sizeofDataHeader) % UINT32 + i) = _
      rw [putNon4K_data, memcpy_inside _ _ _ _ _ hi]

/-! ## What a sequence of calls does -/

theorem placed_put_true (L : Layout) (s : SegmentData) (slice : KVSlice)
    (header : DataHeader) (ops : List Op) (h : (s.Put L slice header).1 = true) :
    s.placed L (Op.put slice header :: ops)
      = s.placement L slice header :: (s.Put L slice header).2.placed L ops := by
  simp [SegmentData.placed, h]

theorem placed_put_false (L : Layout) (s : SegmentData) (slice : KVSlice)
    (header : DataHeader) (ops : List Op) (h : (s.Put L slice header).1 = false) :
    s.placed L (Op.put slice header :: ops) = s.placed L ops := by
  have e : (s.Put L slice header).2 = s := by
    rw [Put_fst] at h
    rw [Put_rejected L s slice header h]
  simp [SegmentData.placed, h, e]

theorem run_spec (L : Layout) (hL : L.WF) (ops : List Op) :
    ∀ s : SegmentData, s.Inv L → s.segSize_ < UINT32 →
      s.headPos_ ≤ (s.run L ops).headPos_ ∧ (s.run L ops).tailPos_ ≤ s.tailPos_ ∧
      (∀ i, L.sizeofSegmentOnDisk ≤ i → i < s.headPos_ ∨ s.tailPos_ ≤ i →
        (s.run L ops).data_ i = s.data_ i) ∧
      (s.run L ops).headPos_ + s.tailPos_
        = s.headPos_ + (s.run L ops).tailPos_
          + ((s.placed L ops).map (Placement.size L)).sum ∧
      (∀ p ∈ s.placed L ops,
        p.Within L s.headPos_ (s.run L ops).headPos_ (s.run L ops).tailPos_ s.tailPos_ ∧
          p.StoredIn L (s.run L ops).data_) := by
  induction ops with
  | nil =>
    intro s _ _
    simp [SegmentData.run, SegmentData.placed]
  | cons op ops ih =>
    intro s hI hb
    obtain ⟨j1, j2⟩ := step_Inv L hL s op hI hb
    obtain ⟨o1, o2, o3⟩ := step_outside L hL s op hI hb
    obtain ⟨r1, r2, r3, r4, r5⟩ := ih (s.step L op) j1 (by omega)
    have hrun : s.run L (op :: ops) = (s.step L op).run L ops := rfl
    obtain ⟨i1, i2, i3⟩ := hI
    obtain ⟨k1, k2, k3⟩ := j1
    rw [hrun]
    refine ⟨by omega, by omega, ?_, ?_, ?_⟩
    · intro i hi ho
      rw [r3 i hi (by omega), o3 i hi ho]
    · cases op with
      | complete =>
        have e : s.placed L (Op.complete :: ops) = (s.Complete L).placed L ops := rfl
        obtain ⟨_, c2, c3, _, _⟩ := Complete_frame L s
        have e1 : (s.step L Op.complete).headPos_ = s.headPos_ := c2
        have e2 : (s.step L Op.complete).tailPos_ = s.tailPos_ := c3
        have e3 : (s.step L Op.complete).placed L ops = (s.Complete L).placed L ops := rfl
        rw [e]
        rw [e3] at r4
        omega
      | put slice header =>
        have est : s.step L (Op.put slice header) = (s.Put L slice header).2 := rfl
        rw [est] at r4 ⊢
        cases hacc : (s.Put L slice header).1 with
        | false =>
          rw [placed_put_false L s slice header ops hacc]
          have e : (s.Put L slice header).2 = s := by
            rw [Put_fst] at hacc
            rw [Put_rejected L s slice header hacc]
          rw [e] at r4 ⊢
          omega
        | true =>
          rw [placed_put_true L s slice header ops hacc]
          obtain ⟨_, a2, _, _, _, _⟩ :=
            Put_accepted L hL s slice header ⟨i1, i2, i3⟩ hb hacc
          have hsz : Placement.size L (s.placement L slice header)
              = L.sizeofDataHeader + slice.GetDataLen := rfl
          rw [List.map_cons, List.sum_cons, hsz]
          rcases a2 with ⟨_, b2, b3, b4, _⟩ | ⟨_, b3, b4, _⟩ <;> omega
    · cases op with
      | complete =>
        intro p hp
        obtain ⟨_, c2, c3, _, _⟩ := Complete_frame L s
        have e1 : (s.step L Op.complete).headPos_ = s.headPos_ := c2
        have e2 : (s.step L Op.complete).tailPos_ = s.tailPos_ := c3
        have h5 := r5 p hp
        rw [e1, e2] at h5
        exact h5
      | put slice header =>
        have est : s.step L (Op.put slice header) = (s.Put L slice header).2 := rfl
        rw [est] at r1 r2 r3 r5 o1 o2 k1 k2 ⊢
        cases hacc : (s.Put L slice header).1 with
        | false =>
          rw [placed_put_false L s slice header ops hacc]
          have e : (s.Put L slice header).2 = s := by
            rw [Put_fst] at hacc
            rw [Put_rejected L s slice header hacc]
          rw [e] at r5 ⊢
          exact r5
        | true =>
          rw [placed_put_true L s slice header ops hacc]
          obtain ⟨a1, a2, a3, _, a5, a6⟩ :=
            Put_accepted L hL s slice header ⟨i1, i2, i3⟩ hb hacc
          intro p hp
          rcases List.mem_cons.mp hp with hp | hp
          · subst hp
            have hs : (s.placement L slice header).slice = slice := rfl
            have hh : (s.placement L slice header).header = header := rfl
            refine ⟨?_, ?_, ?_⟩
            · unfold Placement.Within
              rw [hs]
              rcases a2 with ⟨b1, b2, b3, b4, b5⟩ | ⟨b1, b3, b4, b5⟩
              · exact ⟨by omega, by omega, Or.inl ⟨b1, b2, by omega, by omega⟩⟩
              · exact ⟨by omega, by omega, Or.inr ⟨b1, by omega, by omega⟩⟩
            · intro i hi
              rw [r3 _ (by omega) (Or.inl (by rcases a2 with ⟨_, _, b3, _, _⟩ | ⟨_, b3, _, _⟩
                <;> omega)), a1, hh]
              exact a5 i hi
            · intro i hi
              rw [hs] at hi
              rw [hs, ← a6 i hi]
              apply r3
              · rcases a2 with ⟨_, _, b3, b4, b5⟩ | ⟨_, b3, b4, b5⟩ <;> omega
              · rcases a2 with ⟨_, b2, b3, b4, b5⟩ | ⟨_, b3, b4, b5⟩ <;> omega
          · obtain ⟨⟨w1, w2, w3⟩, w4⟩ := r5 p hp
            refine ⟨⟨by omega, w2, ?_⟩, w4⟩
            rcases w3 with ⟨v1, v2, v3, v4⟩ | ⟨v1, v2, v3⟩
            · exact Or.inl ⟨v1, v2, v3, by omega⟩
            · exact Or.inr ⟨v1, v2, v3⟩

theorem step_put_rejected (L : Layout) (s : SegmentData) (slice : KVSlice)
    (header : DataHeader) (h : (s.Put L slice header).1 = false) :
    (s.Put L slice header).2 = s := by
  rw [Put_fst] at h
  rw [Put_rejected L s slice header h]

/-- Records are placed in call order: a later header starts behind an earlier record
of the head region, and a later aligned payload ends below an earlier one. -/
theorem placed_ordered (L : Layout) (hL : L.WF) (ops : List Op) :
    ∀ s : SegmentData, s.Inv L → s.segSize_ < UINT32 →
      (s.placed L ops).Pairwise (fun p q =>
        p.headOff + L.sizeofDataHeader ≤ q.headOff ∧
        (p.slice.Is4KData = false → p.dataOff + p.slice.GetDataLen ≤ q.headOff) ∧
        (p.slice.Is4KData = true → q.slice.Is4KData = true →
          q.dataOff + 4096 ≤ p.dataOff)) := by
  induction ops with
  | nil => intro s _ _; simp [SegmentData.placed]
  | cons op ops ih =>
    intro s hI hb
    obtain ⟨j1, j2⟩ := step_Inv L hL s op hI hb
    have ih1 := ih (s.step L op) j1 (by omega)
    cases op with
    | complete => exact ih1
    | put slice header =>
      have est : s.step L (Op.put slice header) = (s.Put L slice header).2 := rfl
      rw [est] at ih1 j1 j2
      cases hacc : (s.Put L slice header).1 with
      | false =>
        rw [placed_put_false L s slice header ops hacc]
        rw [step_put_rejected L s slice header hacc] at ih1
        exact ih1
      | true =>
        rw [placed_put_true L s slice header ops hacc]
        obtain ⟨a1, a2, a3, _, _, _⟩ := Put_accepted L hL s slice header hI hb hacc
        obtain ⟨_, _, _, _, r5⟩ := run_spec L hL ops _ j1 (by omega)
        refine List.Pairwise.cons ?_ ih1
        intro q hq
        obtain ⟨⟨w1, w2, w3⟩, _⟩ := r5 q hq
        have hs : (s.placement L slice header).slice = slice := rfl
        rw [hs]
        rcases a2 with ⟨b1, b2, b3, b4, b5⟩ | ⟨b1, b3, b4, b5⟩
        · refine ⟨by omega, ?_, ?_⟩
          · intro h; rw [b1] at h; exact absurd h (by simp)
          · intro _ hq4
            rcases w3 with ⟨v1, v2, v3, v4⟩ | ⟨v1, v2, v3⟩
            · omega
            · rw [hq4] at v1; exact absurd v1 (by simp)
        · refine ⟨by omega, ?_, ?_⟩
          · intro _; omega
          · intro h; rw [b1] at h; exact absurd h (by simp)

/-- The `k`-th aligned record (counting from zero) has its payload `(k+1) * 4096`
bytes below the tail cursor the sequence started from. -/
theorem placed_aligned (L : Layout) (hL : L.WF) (ops : List Op) :
    ∀ (s : SegmentData), s.Inv L → s.segSize_ < UINT32 → ∀ (k : Nat) (p : Placement),
      ((s.placed L ops).filter (fun q => q.slice.Is4KData))[k]? = some p →
        p.dataOff + (k + 1) * 4096 = s.tailPos_ := by
  induction ops with
  | nil => intro s _ _ k p h; simp [SegmentData.placed] at h
  | cons op ops ih =>
    intro s hI hb k p h
    obtain ⟨j1, j2⟩ := step_Inv L hL s op hI hb
    have ih1 := ih (s.step L op) j1 (by omega)
    cases op with
    | complete =>
      have e : (s.step L Op.complete).tailPos_ = s.tailPos_ := (Complete_frame L s).2.2.1
      rw [← e]
      exact ih1 k p h
    | put slice header =>
      have est : s.step L (Op.put slice header) = (s.Put L slice header).2 := rfl
      rw [est] at ih1
      cases hacc : (s.Put L slice header).1 with
      | false =>
        rw [placed_put_false L s slice header ops hacc] at h
        rw [step_put_rejected L s slice header hacc] at ih1
        exact ih1 k p h
      | true =>
        rw [placed_put_true L s slice header ops hacc] at h
        obtain ⟨a1, a2, a3, _, _, _⟩ := Put_accepted L hL s slice header hI hb hacc
        have hs : (s.placement L slice header).slice = slice := rfl
        rcases a2 with ⟨b1, b2, b3, b4, b5⟩ | ⟨b1, b3, b4, b5⟩
        · rw [List.filter_cons_of_pos (by rw [hs]; exact b1)] at h
          cases k with
          | zero =>
            simp only [List.getElem?_cons_zero, Option.some.injEq] at h
            subst h
            omega
          | succ k =>
            simp only [List.getElem?_cons_succ] at h
            have := ih1 k p h
            omega
        · rw [List.filter_cons_of_neg (by rw [hs, b1]; simp)] at h
          have := ih1 k p h
          omega

/-- The first placed record has its header at the head cursor the sequence started
from. -/
theorem placed_head (L : Layout) (ops : List Op) :
    ∀ (s : SegmentData) (p : Placement), (s.placed L ops).head? = some p →
      p.headOff = s.headPos_ := by
  induction ops with
  | nil => intro s p h; simp [SegmentData.placed] at h
  | cons op ops ih =>
    intro s p h
    cases op with
    | complete =>
      have e : (s.Complete L).headPos_ = s.headPos_ := (Complete_frame L s).2.1
      rw [← e]
      exact ih (s.Complete L) p h
    | put slice header =>
      cases hacc : (s.Put L slice header).1 with
      | false =>
        rw [placed_put_false L s slice header ops hacc] at h
        exact ih s p h
      | true =>
        rw [placed_put_true L s slice header ops hacc] at h
        simp only [List.head?_cons, Option.some.injEq] at h
        subst h
        rfl

/-- The record counter after a sequence of calls, as the 32-bit counter computes it. -/
theorem run_keyNum (L : Layout) (ops : List Op) :
    ∀ s : SegmentData,
      (s.run L ops).keyNum_ % UINT32 = (s.keyNum_ + (s.placed L ops).length) % UINT32 := by
  induction ops with
  | nil => intro s; simp [SegmentData.run, SegmentData.placed]
  | cons op ops ih =>
    intro s
    have hrun : s.run L (op :: ops) = (s.step L op).run L ops := rfl
    rw [hrun, ih]
    cases op with
    | complete => rfl
    | put slice header =>
      have est : s.step L (Op.put slice header) = (s.Put L slice header).2 := rfl
      rw [est]
      cases hacc : (s.Put L slice header).1 with
      | false =>
        rw [placed_put_false L s slice header ops hacc,
          step_put_rejected L s slice header hacc]
      | true =>
        rw [placed_put_true L s slice header ops hacc]
        have hk : (s.Put L slice header).2.keyNum_ = (s.keyNum_ + 1) % UINT32 := by
          rw [Put_fst] at hacc
          cases h4 : slice.Is4KData with
          | true => rw [Put_4K L s slice header hacc h4]; rfl
          | false => rw [Put_non4K L s slice header hacc h4]; rfl
        rw [hk, List.length_cons]
        unfold UINT32
        omega

theorem size_sum_ge_length (L : Layout) (hL : L.WF) (log : List Placement) :
    log.length ≤ (log.map (Placement.size L)).sum := by
  induction log with
  | nil => simp
  | cons p log ih =>
    have hp : 1 ≤ Placement.size L p := by
      unfold Placement.size
      have := hL.1
      omega
    rw [List.map_cons, List.sum_cons, List.length_cons]
    omega

/-- The placed records are, in order, the accepted `Put` calls of the sequence. -/
theorem placed_sublist (L : Layout) (ops : List Op) :
    ∀ s : SegmentData,
      ((s.placed L ops).map (fun p => Op.put p.slice p.header)).Sublist ops := by
  induction ops with
  | nil => intro s; simp [SegmentData.placed]
  | cons op ops ih =>
    intro s
    cases op with
    | complete => exact List.Sublist.cons _ (ih (s.Complete L))
    | put slice header =>
      cases hacc : (s.Put L slice header).1 with
      | false =>
        rw [placed_put_false L s slice header ops hacc]
        exact List.Sublist.cons _ (ih s)
      | true =>
        rw [placed_put_true L s slice header ops hacc, List.map_cons]
        exact List.Sublist.cons₂ _ (ih _)

theorem run_keyNum_lt (L : Layout) (ops : List Op) :
    ∀ s : SegmentData, s.keyNum_ < UINT32 → (s.run L ops).keyNum_ < UINT32 := by
  induction ops with
  | nil => intro s h; exact h
  | cons op ops ih =>
    intro s h
    apply ih
    cases op with
    | complete => exact h
    | put slice header =>
      show (s.Put L slice header).2.keyNum_ < UINT32
      unfold SegmentData.Put
      cases s.isCanFit L slice <;> cases slice.Is4KData <;>
        simp only [Bool.not_false, Bool.not_true, if_true, if_false, SegmentData.put4K,
          SegmentData.putNon4K] <;>
        first
          | exact h
          | exact Nat.mod_lt _ (by unfold UINT32; omega)

theorem run_puts_completed (L : Layout) (recs : List (KVSlice × DataHeader)) :
    ∀ s : SegmentData,
      (s.run L (recs.map (fun r => Op.put r.1 r.2))).completed_ = s.completed_ := by
  induction recs with
  | nil => intro s; rfl
  | cons r recs ih =>
    intro s
    have e : s.run L ((r :: recs).map (fun r => Op.put r.1 r.2))
        = (s.Put L r.1 r.2).2.run L (recs.map (fun r => Op.put r.1 r.2)) := rfl
    rw [e, ih, (Put_frame L s r.1 r.2).2.2.2]

theorem Complete_data (L : Layout) (s : SegmentData) :
    (∀ i, i < L.sizeofSegmentOnDisk → (s.Complete L).data_ i = L.segOnDisk s.keyNum_ i) ∧
      (∀ i, L.sizeofSegmentOnDisk ≤ i → (s.Complete L).data_ i = s.data_ i) := by
  have e : (s.Complete L).data_
      = memcpy s.data_ 0 (L.segOnDisk s.keyNum_) L.sizeofSegmentOnDisk := rfl
  rw [e]
  constructor
  · intro i hi
    have := memcpy_inside s.data_ (L.segOnDisk s.keyNum_) 0 L.sizeofSegmentOnDisk i hi
    rwa [Nat.zero_add] at this
  · intro i hi
    exact memcpy_outside _ _ _ _ _ (by omega)

/-- A `Put` writes only inside the free window `[headPos_, tailPos_)`. -/
theorem Put_outside (L : Layout) (hL : L.WF) (s : SegmentData) (slice : KVSlice)
    (header : DataHeader) (hI : s.Inv L) (hb : s.segSize_ < UINT32) :
    ∀ i, i < s.headPos_ ∨ s.tailPos_ ≤ i → (s.Put L slice header).2.data_ i = s.data_ i := by
  obtain ⟨i1, i2, i3⟩ := hI
  have h2 : s.tailPos_ < UINT32 := by omega
  intro i hi
  cases hfit : s.isCanFit L slice with
  | false => rw [Put_rejected L s slice header hfit]
  | true =>
    cases h4 : slice.Is4KData with
    | true =>
      rw [Put_4K L s slice header hfit h4]
      obtain ⟨c1, c2, c3, c4⟩ := put4K_cursors L hL s slice header i2 h2 hfit h4
      show (s.put4K L slice header).data_ i = s.data_ i
      rw [put4K_data, memcpy_outside _ _ _ _ _ (by omega),
        memcpy_outside _ _ _ _ _ (by omega)]
    | false =>
      rw [Put_non4K L s slice header hfit h4]
      obtain ⟨c1, c2, c3, c4⟩ := putNon4K_cursors L hL s slice header i2 h2 hfit
      show (s.putNon4K L slice header).data_ i = s.data_ i
      rw [putNon4K_data, memcpy_outside _ _ _ _ _ (by omega),
        memcpy_outside _ _ _ _ _ (by omega)]

/-- The fit check and both placement paths never read `completed_`. -/
theorem Put_completed_irrelevant (L : Layout) (s : SegmentData) (slice : KVSlice)
    (header : DataHeader) (b : Bool) :
    ({ s with completed_ := b }.Put L slice header).1 = (s.Put L slice header).1 ∧
      ({ s with completed_ := b }.Put L slice header).2
        = { (s.Put L slice header).2 with completed_ := b } := by
  have e : SegmentData.isCanFit { s with completed_ := b } L slice = s.isCanFit L slice := rfl
  unfold SegmentData.Put
  rw [e]
  cases s.isCanFit L slice <;> cases slice.Is4KData <;>
    simp [SegmentData.put4K, SegmentData.putNon4K]

/-! ## Rejected calls and the fit check -/

/-- C1: whenever `Put` returns false, the segment after the call is the segment before
it: `headPos_`, `tailPos_`, `keyNum_`, `completed_` and every byte of `data_` are
unchanged. -/
theorem C1_Put_false_leaves_segment_unchanged (L : Layout) (s : SegmentData)
    (slice : KVSlice) (header : DataHeader) (h : (s.Put L slice header).1 = false) :
    (s.Put L slice header).2.headPos_ = s.headPos_ ∧
      (s.Put L slice header).2.tailPos_ = s.tailPos_ ∧
      (s.Put L slice header).2.keyNum_ = s.keyNum_ ∧
      (s.Put L slice header).2.completed_ = s.completed_ ∧
      (∀ i, (s.Put L slice header).2.data_ i = s.data_ i) ∧
      (s.Put L slice header).2 = s := by
  rw [Put_fst] at h
  rw [Put_rejected L s slice header h]
  simp

/-- Instance of C1: a 100-byte payload offered to a fresh 128-byte segment. -/
theorem C1_Put_false_leaves_segment_unchanged_witness :
    ((exSeg 128).Put exLayout (exSlice 100 0) (exHeader 100)).1 = false ∧
      ((exSeg 128).Put exLayout (exSlice 100 0) (exHeader 100)).2.headPos_ = 32 ∧
      ((exSeg 128).Put exLayout (exSlice 100 0) (exHeader 100)).2.tailPos_ = 128 ∧
      ((exSeg 128).Put exLayout (exSlice 100 0) (exHeader 100)).2 = exSeg 128 :=
  have h : ((exSeg 128).Put exLayout (exSlice 100 0) (exHeader 100)).1 = false := by decide
  have r := C1_Put_false_leaves_segment_unchanged exLayout (exSeg 128) (exSlice 100 0)
    (exHeader 100) h
  ⟨h, r.1, r.2.1, r.2.2.2.2.2⟩

/-- C2: on a segment built by the constructor over a segment size of at least
`sizeof(SegmentOnDisk)`, after every sequence of `Put` and `Complete` calls
`sizeof(SegmentOnDisk) <= headPos_ <= tailPos_ <= segSize_` holds, and the 32-bit
difference computed by the fit check is the true difference `tailPos_ - headPos_`. -/
theorem C2_cursor_invariant_after_every_call (L : Layout) (hL : L.WF) (seg_id : Nat)
    (sm : SegmentManager) (now : Int) (raw : Mem)
    (hsz : L.sizeofSegmentOnDisk ≤ sm.GetSegmentSize) (ops : List Op) :
    L.sizeofSegmentOnDisk ≤ ((SegmentData.ctor L seg_id sm now raw).run L ops).headPos_ ∧
      ((SegmentData.ctor L seg_id sm now raw).run L ops).headPos_
        ≤ ((SegmentData.ctor L seg_id sm now raw).run L ops).tailPos_ ∧
      ((SegmentData.ctor L seg_id sm now raw).run L ops).tailPos_ ≤ sm.GetSegmentSize ∧
      ((SegmentData.ctor L seg_id sm now raw).run L ops).segSize_ = sm.GetSegmentSize ∧
      ((SegmentData.ctor L seg_id sm now raw).run L ops).freeSize + 
          ((SegmentData.ctor L seg_id sm now raw).run L ops).headPos_
        = ((SegmentData.ctor L seg_id sm now raw).run L ops).tailPos_ := by
  obtain ⟨c1, _, _, c4⟩ := ctor_Inv L seg_id sm now raw hsz
  have hlt := GetSegmentSize_lt sm
  obtain ⟨⟨i1, i2, i3⟩, i4⟩ := run_Inv L hL ops _ c1 (by omega)
  have hf := freeSize_eq _ i2 (by omega)
  refine ⟨i1, i2, by omega, by omega, by omega⟩

/-- Instance of C2: the example calls on a fresh 8192-byte segment. -/
theorem C2_cursor_invariant_after_every_call_witness :
    exLayout.WF ∧ exLayout.sizeofSegmentOnDisk ≤ exManager.GetSegmentSize ∧
      32 ≤ ((exSeg 8192).run exLayout exOps).headPos_ ∧
      ((exSeg 8192).run exLayout exOps).headPos_
        ≤ ((exSeg 8192).run exLayout exOps).tailPos_ ∧
      ((exSeg 8192).run exLayout exOps).tailPos_ ≤ 8192 :=
  have r := C2_cursor_invariant_after_every_call exLayout (by decide) 1 exManager 0
    (fun _ => 170) (by decide) exOps
  ⟨by decide, by decide, r.1, r.2.1, r.2.2.1⟩

/-- C3, as the code refutes it: on a fresh 128-byte segment (free space 96) a record
of required size exactly 96 is rejected, although its size does not exceed the free
space. -/
theorem C3_exact_fit_is_rejected :
    (exSeg 128).headPos_ ≤ (exSeg 128).tailPos_ ∧
      (exSlice 64 0).GetDataLen + exLayout.sizeofDataHeader
        = (exSeg 128).tailPos_ - (exSeg 128).headPos_ ∧
      ((exSeg 128).Put exLayout (exSlice 64 0) (exHeader 64)).1 = false ∧
      ¬ (((exSeg 128).Put exLayout (exSlice 64 0) (exHeader 64)).1 = false ↔
          (exSlice 64 0).GetDataLen + exLayout.sizeofDataHeader
            > (exSeg 128).tailPos_ - (exSeg 128).headPos_) := by
  decide

/-- C3, amended: with `headPos_ <= tailPos_` (32-bit values), `Put` returns failure
exactly when the required size, payload length plus `sizeof(DataHeader)`, is greater
than or equal to the free space `tailPos_ - headPos_`; a record is accepted only when
it leaves at least one byte free. -/
theorem C3_Put_fails_iff_need_ge_free (L : Layout) (hL : L.WF) (s : SegmentData)
    (slice : KVSlice) (header : DataHeader) (h1 : s.headPos_ ≤ s.tailPos_)
    (h2 : s.tailPos_ < UINT32) :
    ((s.Put L slice header).1 = false ↔
        s.tailPos_ - s.headPos_ ≤ slice.GetDataLen + L.sizeofDataHeader) ∧
      ((s.Put L slice header).1 = true ↔
        slice.GetDataLen + L.sizeofDataHeader < s.tailPos_ - s.headPos_) := by
  rw [Put_fst]
  have h := isCanFit_iff L hL s slice h1 h2
  constructor
  · rw [← Bool.not_eq_true, h]
    omega
  · exact h

/-- Instance of the amended C3: required size 96 against free space 96. -/
theorem C3_Put_fails_iff_need_ge_free_witness :
    exLayout.WF ∧ (exSeg 128).headPos_ ≤ (exSeg 128).tailPos_ ∧
      (exSeg 128).tailPos_ < UINT32 ∧
      (((exSeg 128).Put exLayout (exSlice 64 0) (exHeader 64)).1 = false ↔
        (exSeg 128).tailPos_ - (exSeg 128).headPos_
          ≤ (exSlice 64 0).GetDataLen + exLayout.sizeofDataHeader) :=
  ⟨by decide, by decide, by decide,
    (C3_Put_fails_iff_need_ge_free exLayout (by decide) (exSeg 128) (exSlice 64 0)
      (exHeader 64) (by decide) (by decide)).1⟩

/-! ## Space accounting -/

/-- C4, as the code refutes it: after one accepted 10-byte record on a fresh 128-byte
segment `headPos_ + (segSize_ - tailPos_)` is 74, while the sizes placed sum to 42;
the difference is the segment header the head cursor starts behind. -/
theorem C4_used_space_includes_segment_header :
    ((exSeg 128).Put exLayout (exSlice 10 0) (exHeader 10)).1 = true ∧
      ((exSeg 128).run exLayout [Op.put (exSlice 10 0) (exHeader 10)]).headPos_
        + (((exSeg 128).run exLayout [Op.put (exSlice 10 0) (exHeader 10)]).segSize_
          - ((exSeg 128).run exLayout [Op.put (exSlice 10 0) (exHeader 10)]).tailPos_)
        = 74 ∧
      (((exSeg 128).placed exLayout [Op.put (exSlice 10 0) (exHeader 10)]).map
        (Placement.size exLayout)).sum = 42 ∧
      ((exSeg 128).run exLayout [Op.put (exSlice 10 0) (exHeader 10)]).headPos_
        + (((exSeg 128).run exLayout [Op.put (exSlice 10 0) (exHeader 10)]).segSize_
          - ((exSeg 128).run exLayout [Op.put (exSlice 10 0) (exHeader 10)]).tailPos_)
        ≠ (((exSeg 128).placed exLayout [Op.put (exSlice 10 0) (exHeader 10)]).map
            (fun p => exLayout.sizeofDataHeader + p.slice.GetDataLen)).sum := by
  decide

/-- C4, amended: on a fresh segment of size at least `sizeof(SegmentOnDisk)`, after
every sequence of calls `headPos_ + (segSize_ - tailPos_)` equals
`sizeof(SegmentOnDisk)` plus the sum, over the records accepted so far, of
`sizeof(DataHeader)` + payload length. -/
theorem C4_used_space_is_header_plus_placed (L : Layout) (hL : L.WF) (seg_id : Nat)
    (sm : SegmentManager) (now : Int) (raw : Mem)
    (hsz : L.sizeofSegmentOnDisk ≤ sm.GetSegmentSize) (ops : List Op) :
    ((SegmentData.ctor L seg_id sm now raw).run L ops).headPos_
        + (((SegmentData.ctor L seg_id sm now raw).run L ops).segSize_
          - ((SegmentData.ctor L seg_id sm now raw).run L ops).tailPos_)
      = L.sizeofSegmentOnDisk
        + (((SegmentData.ctor L seg_id sm now raw).placed L ops).map
            (fun p => L.sizeofDataHeader + p.slice.GetDataLen)).sum := by
  obtain ⟨c1, c2, c3, c4⟩ := ctor_Inv L seg_id sm now raw hsz
  have hlt := GetSegmentSize_lt sm
  obtain ⟨⟨_, _, i3⟩, i4⟩ := run_Inv L hL ops _ c1 (by omega)
  obtain ⟨_, _, _, r4, _⟩ := run_spec L hL ops _ c1 (by omega)
  have e : (fun p : Placement => L.sizeofDataHeader + p.slice.GetDataLen)
      = Placement.size L := rfl
  rw [e]
  omega

/-- Instance of the amended C4: the example calls on a fresh 8192-byte segment. -/
theorem C4_used_space_is_header_plus_placed_witness :
    exLayout.WF ∧ exLayout.sizeofSegmentOnDisk ≤ exManager.GetSegmentSize ∧
      ((exSeg 8192).run exLayout exOps).headPos_
          + (((exSeg 8192).run exLayout exOps).segSize_
            - ((exSeg 8192).run exLayout exOps).tailPos_)
        = 32 + (((exSeg 8192).placed exLayout exOps).map
            (fun p => 32 + p.slice.GetDataLen)).sum :=
  ⟨by decide, by decide,
    C4_used_space_is_header_plus_placed exLayout (by decide) 1 exManager 0
      (fun _ => 170) (by decide) exOps⟩

/-! ## Where the records lie -/

/-- C5: on a fresh segment, the `k`-th accepted aligned record (counting from zero) has
its payload at offset `segSize - (k+1) * 4096`, a multiple of 4096 when the segment
size is one, and the buffer holds the payload there; aligned payloads lie at strictly
decreasing offsets. The first record header starts at `sizeof(SegmentOnDisk)`, record
headers lie at strictly increasing offsets, and every record that is not aligned is
stored header first, its payload right behind its header and entirely before the next
record header. -/
theorem C5_aligned_from_the_end_others_from_the_head (L : Layout) (hL : L.WF)
    (seg_id : Nat) (sm : SegmentManager) (now : Int) (raw : Mem)
    (hsz : L.sizeofSegmentOnDisk ≤ sm.GetSegmentSize) (ops : List Op) :
    (∀ (k : Nat) (p : Placement),
        (((SegmentData.ctor L seg_id sm now raw).placed L ops).filter
          (fun q => q.slice.Is4KData))[k]? = some p →
        (k + 1) * 4096 ≤ sm.GetSegmentSize ∧
          p.dataOff = sm.GetSegmentSize - (k + 1) * 4096 ∧
          (4096 ∣ sm.GetSegmentSize → 4096 ∣ p.dataOff) ∧
          ∀ i, i < 4096 →
            ((SegmentData.ctor L seg_id sm now raw).run L ops).data_
                (sm.GetSegmentSize - (k + 1) * 4096 + i)
              = p.slice.GetData.bytes i) ∧
      ((((SegmentData.ctor L seg_id sm now raw).placed L ops).filter
          (fun q => q.slice.Is4KData)).Pairwise (fun p q => q.dataOff < p.dataOff)) ∧
      (∀ p, ((SegmentData.ctor L seg_id sm now raw).placed L ops).head? = some p →
        p.headOff = L.sizeofSegmentOnDisk) ∧
      (((SegmentData.ctor L seg_id sm now raw).placed L ops).Pairwise
        (fun p q => p.headOff < q.headOff)) ∧
      (∀ p ∈ (SegmentData.ctor L seg_id sm now raw).placed L ops,
        p.slice.Is4KData = false →
          p.dataOff = p.headOff + L.sizeofDataHeader ∧
          (∀ i, i < L.sizeofDataHeader →
            ((SegmentData.ctor L seg_id sm now raw).run L ops).data_ (p.headOff + i)
              = L.headerBytes p.header i) ∧
          (∀ i, i < p.slice.GetDataLen →
            ((SegmentData.ctor L seg_id sm now raw).run L ops).data_
                (p.headOff + L.sizeofDataHeader + i)
              = p.slice.GetData.bytes i)) ∧
      ((((SegmentData.ctor L seg_id sm now raw).placed L ops).filter
          (fun q => !q.slice.Is4KData)).Pairwise
        (fun p q => p.headOff < p.dataOff ∧ p.dataOff + p.slice.GetDataLen ≤ q.headOff ∧
          p.dataOff < q.dataOff)) := by
  obtain ⟨c1, c2, c3, c4⟩ := ctor_Inv L seg_id sm now raw hsz
  have hlt := GetSegmentSize_lt sm
  have hb : (SegmentData.ctor L seg_id sm now raw).segSize_ < UINT32 := by omega
  obtain ⟨_, _, _, _, r5⟩ := run_spec L hL ops _ c1 hb
  have hord := placed_ordered L hL ops _ c1 hb
  have hpos : 0 < L.sizeofDataHeader := hL.1
  refine ⟨?_, ?_, ?_, ?_, ?_, ?_⟩
  · intro k p hk
    have ha := placed_aligned L hL ops _ c1 hb k p hk
    rw [c3] at ha
    have hmem : p ∈ ((SegmentData.ctor L seg_id sm now raw).placed L ops).filter
        (fun q => q.slice.Is4KData) := List.getElem?_mem hk
    obtain ⟨hp, h4⟩ := List.mem_filter.mp hmem
    obtain ⟨_, _, st⟩ := r5 p hp
    have hlen := (Is4KData_iff p.slice).mp h4
    have e : sm.GetSegmentSize - (k + 1) * 4096 = p.dataOff := by omega
    refine ⟨by omega, by omega, ?_, ?_⟩
    · intro hd
      have h1 : 4096 ∣ p.dataOff + (k + 1) * 4096 := by rw [ha]; exact hd
      exact (Nat.dvd_add_left (Dvd.intro_left (k + 1) rfl)).mp h1
    · intro i hi
      rw [e]
      exact st i (by omega)
  · refine List.Pairwise.imp_of_mem ?_ (hord.filter (fun q => q.slice.Is4KData))
    intro p q hp hq h
    have p1 := (List.mem_filter.mp hp).2
    have q1 := (List.mem_filter.mp hq).2
    have := h.2.2 p1 q1
    omega
  · intro p hp
    rw [placed_head L ops _ p hp, c2]
  · refine List.Pairwise.imp ?_ hord
    intro p q h
    omega
  · intro p hp h4
    obtain ⟨⟨_, _, wp⟩, st1, st2⟩ := r5 p hp
    rcases wp with ⟨p1, _, _, _⟩ | ⟨_, p2, _⟩
    · rw [h4] at p1; exact absurd p1 (by simp)
    · refine ⟨p2, st1, ?_⟩
      intro i hi
      rw [← p2]
      exact st2 i hi
  · refine List.Pairwise.imp_of_mem ?_ (hord.filter (fun q => !q.slice.Is4KData))
    intro p q hp hq h
    obtain ⟨hp, p1⟩ := List.mem_filter.mp hp
    obtain ⟨hq, q1⟩ := List.mem_filter.mp hq
    have p1 : p.slice.Is4KData = false := by simpa using p1
    have q1 : q.slice.Is4KData = false := by simpa using q1
    obtain ⟨h1, h2, _⟩ := h
    have h2 := h2 p1
    obtain ⟨⟨_, _, wp⟩, _⟩ := r5 p hp
    obtain ⟨⟨_, _, wq⟩, _⟩ := r5 q hq
    rcases wp with ⟨p4, _, _, _⟩ | ⟨_, p2, _⟩
    · rw [p1] at p4; exact absurd p4 (by simp)
    · rcases wq with ⟨q4, _, _, _⟩ | ⟨_, q2, _⟩
      · rw [q1] at q4; exact absurd q4 (by simp)
      · omega

/-- Instance of C5: the example calls on a fresh 8192-byte segment; the aligned record
lies at offset 4096 = 8192 - 4096 and the first header at offset 32. -/
theorem C5_aligned_from_the_end_others_from_the_head_witness :
    exLayout.WF ∧ exLayout.sizeofSegmentOnDisk ≤ exManager.GetSegmentSize ∧
      (∀ (k : Nat) (p : Placement),
        (((exSeg 8192).placed exLayout exOps).filter
          (fun q => q.slice.Is4KData))[k]? = some p →
        (k + 1) * 4096 ≤ exManager.GetSegmentSize ∧
          p.dataOff = exManager.GetSegmentSize - (k + 1) * 4096 ∧
          (4096 ∣ exManager.GetSegmentSize → 4096 ∣ p.dataOff) ∧
          ∀ i, i < 4096 →
            ((exSeg 8192).run exLayout exOps).data_
                (exManager.GetSegmentSize - (k + 1) * 4096 + i)
              = p.slice.GetData.bytes i) ∧
      (∀ p, ((exSeg 8192).placed exLayout exOps).head? = some p → p.headOff = 32) ∧
      (((exSeg 8192).placed exLayout exOps).map (fun p => (p.headOff, p.dataOff))
        = [(32, 64), (74, 4096), (106, 138)]) :=
  have r := C5_aligned_from_the_end_others_from_the_head exLayout (by decide) 1 exManager
    0 (fun _ => 170) (by decide) exOps
  ⟨by decide, by decide, r.1, r.2.2.1, by decide⟩

/-! ## Reading the records back -/

/-- C6: put records into a fresh segment of size at least `sizeof(SegmentOnDisk)` and
call `Complete`. Then `GetCompleteSeg` returns the buffer; the placed records are, in
order, the accepted `Put` calls (all of the calls when every one is accepted); for
each of them the buffer holds the header bytes at the header offset and the payload
bytes at the payload offset; every record lies behind the segment header and inside
the buffer, header before payload; and the byte ranges of two different records are
disjoint. -/
theorem C6_records_read_back_after_Complete (L : Layout) (hL : L.WF) (seg_id : Nat)
    (sm : SegmentManager) (now : Int) (raw : Mem)
    (hsz : L.sizeofSegmentOnDisk ≤ sm.GetSegmentSize) (ops : List Op) :
    (((SegmentData.ctor L seg_id sm now raw).run L ops).Complete L).GetCompleteSeg
        = some (((SegmentData.ctor L seg_id sm now raw).run L ops).Complete L).data_ ∧
      (((SegmentData.ctor L seg_id sm now raw).placed L ops).map
        (fun p => Op.put p.slice p.header)).Sublist ops ∧
      (((SegmentData.ctor L seg_id sm now raw).placed L ops).length = ops.length →
        ((SegmentData.ctor L seg_id sm now raw).placed L ops).map
          (fun p => Op.put p.slice p.header) = ops) ∧
      (∀ p ∈ (SegmentData.ctor L seg_id sm now raw).placed L ops,
        (∀ i, i < L.sizeofDataHeader →
          (((SegmentData.ctor L seg_id sm now raw).run L ops).Complete L).data_
              (p.headOff + i)
            = L.headerBytes p.header i) ∧
        (∀ i, i < p.slice.GetDataLen →
          (((SegmentData.ctor L seg_id sm now raw).run L ops).Complete L).data_
              (p.dataOff + i)
            = p.slice.GetData.bytes i) ∧
        L.sizeofSegmentOnDisk ≤ p.headOff ∧
        p.headOff + L.sizeofDataHeader ≤ p.dataOff ∧
        p.dataOff + p.slice.GetDataLen ≤ sm.GetSegmentSize) ∧
      (((SegmentData.ctor L seg_id sm now raw).placed L ops).Pairwise (fun p q =>
        p.headOff + L.sizeofDataHeader ≤ q.headOff ∧
        p.headOff + L.sizeofDataHeader ≤ q.dataOff ∧
        (p.dataOff + p.slice.GetDataLen ≤ q.headOff ∨
          q.headOff + L.sizeofDataHeader ≤ p.dataOff) ∧
        (p.dataOff + p.slice.GetDataLen ≤ q.dataOff ∨
          q.dataOff + q.slice.GetDataLen ≤ p.dataOff))) := by
  obtain ⟨c1, c2, c3, c4⟩ := ctor_Inv L seg_id sm now raw hsz
  have hlt := GetSegmentSize_lt sm
  have hb : (SegmentData.ctor L seg_id sm now raw).segSize_ < UINT32 := by omega
  obtain ⟨⟨i1, i2, i3⟩, i4⟩ := run_Inv L hL ops _ c1 hb
  obtain ⟨_, r2, _, _, r5⟩ := run_spec L hL ops _ c1 hb
  have hord := placed_ordered L hL ops _ c1 hb
  obtain ⟨_, d2⟩ := Complete_data L ((SegmentData.ctor L seg_id sm now raw).run L ops)
  have hsub := placed_sublist L ops (SegmentData.ctor L seg_id sm now raw)
  refine ⟨?_, hsub, ?_, ?_, ?_⟩
  · simp [SegmentData.GetCompleteSeg, SegmentData.Complete]
  · intro hlen
    exact hsub.eq_of_length (by rw [List.length_map]; exact hlen)
  · intro p hp
    obtain ⟨⟨w1, w2, w3⟩, st1, st2⟩ := r5 p hp
    refine ⟨?_, ?_, by omega, ?_, ?_⟩
    · intro i hi
      rw [d2 _ (by omega)]
      exact st1 i hi
    · intro i hi
      rw [d2 _ (by rcases w3 with ⟨_, _, _, _⟩ | ⟨_, _, _⟩ <;> omega)]
      exact st2 i hi
    · rcases w3 with ⟨_, _, _, _⟩ | ⟨_, _, _⟩ <;> omega
    · rcases w3 with ⟨_, _, _, _⟩ | ⟨_, _, _⟩ <;> omega
  · refine List.Pairwise.imp_of_mem ?_ hord
    intro p q hp hq h
    obtain ⟨h1, h2, h3⟩ := h
    obtain ⟨⟨_, _, wp⟩, _⟩ := r5 p hp
    obtain ⟨⟨_, _, wq⟩, _⟩ := r5 q hq
    rcases wp with ⟨p1, p2, p3, p4⟩ | ⟨p1, p2, p3⟩ <;>
      rcases wq with ⟨q1, q2, q3, q4⟩ | ⟨q1, q2, q3⟩
    · have := h3 p1 q1
      refine ⟨h1, by omega, Or.inr (by omega), Or.inr (by omega)⟩
    · refine ⟨h1, by omega, Or.inr (by omega), Or.inr (by omega)⟩
    · have := h2 p1
      refine ⟨h1, by omega, Or.inl (by omega), Or.inl (by omega)⟩
    · have := h2 p1
      refine ⟨h1, by omega, Or.inl (by omega), Or.inl (by omega)⟩

/-- Instance of C6: the example calls followed by `Complete`; the ten payload bytes of
the first record are read back at offset 64. -/
theorem C6_records_read_back_after_Complete_witness :
    exLayout.WF ∧ exLayout.sizeofSegmentOnDisk ≤ exManager.GetSegmentSize ∧
      (((exSeg 8192).run exLayout exOps).Complete exLayout).GetCompleteSeg
        = some (((exSeg 8192).run exLayout exOps).Complete exLayout).data_ ∧
      (∀ p ∈ (exSeg 8192).placed exLayout exOps,
        (∀ i, i < exLayout.sizeofDataHeader →
          (((exSeg 8192).run exLayout exOps).Complete exLayout).data_ (p.headOff + i)
            = exLayout.headerBytes p.header i) ∧
        (∀ i, i < p.slice.GetDataLen →
          (((exSeg 8192).run exLayout exOps).Complete exLayout).data_ (p.dataOff + i)
            = p.slice.GetData.bytes i) ∧
        exLayout.sizeofSegmentOnDisk ≤ p.headOff ∧
        p.headOff + exLayout.sizeofDataHeader ≤ p.dataOff ∧
        p.dataOff + p.slice.GetDataLen ≤ exManager.GetSegmentSize) ∧
      ((List.range 10).map (fun i =>
          (((exSeg 8192).run exLayout exOps).Complete exLayout).data_ (64 + i))
        = [0, 1, 2, 3, 4, 5, 6, 7, 8, 9]) :=
  have r := C6_records_read_back_after_Complete exLayout (by decide) 1 exManager 0
    (fun _ => 170) (by decide) exOps
  ⟨by decide, by decide, r.1, r.2.2.2.1, by decide⟩

/-! ## The committed buffer -/

/-- C7: `GetCompleteSeg` returns `NULL` on a fresh segment, after any number of `Put`
calls on it, and on every segment whose completed flag is not set; right after
`Complete`, on every segment, it returns the data buffer, whose first
`sizeof(SegmentOnDisk)` bytes are the segment header built from `keyNum_`; and on a
segment built by the constructor `keyNum_` is the number of `Put` calls accepted so
far. -/
theorem C7_GetCompleteSeg_only_after_Complete (L : Layout) (seg_id : Nat)
    (sm : SegmentManager) (now : Int) (raw : Mem) (recs : List (KVSlice × DataHeader))
    (ops : List Op) (s : SegmentData) :
    (SegmentData.ctor L seg_id sm now raw).GetCompleteSeg = none ∧
      ((SegmentData.ctor L seg_id sm now raw).run L
        (recs.map (fun r => Op.put r.1 r.2))).GetCompleteSeg = none ∧
      (s.completed_ = false → s.GetCompleteSeg = none) ∧
      (s.Complete L).GetCompleteSeg = some (s.Complete L).data_ ∧
      (∀ i, i < L.sizeofSegmentOnDisk →
        (s.Complete L).data_ i = L.segOnDisk s.keyNum_ i) ∧
      (L.WF → L.sizeofSegmentOnDisk ≤ sm.GetSegmentSize →
        ((SegmentData.ctor L seg_id sm now raw).run L ops).keyNum_
            = ((SegmentData.ctor L seg_id sm now raw).placed L ops).length ∧
          ∀ i, i < L.sizeofSegmentOnDisk →
            (((SegmentData.ctor L seg_id sm now raw).run L ops).Complete L).data_ i
              = L.segOnDisk
                  ((SegmentData.ctor L seg_id sm now raw).placed L ops).length i) := by
  refine ⟨rfl, ?_, ?_, ?_, (Complete_data L s).1, ?_⟩
  · have hc := run_puts_completed L recs (SegmentData.ctor L seg_id sm now raw)
    have h0 : (SegmentData.ctor L seg_id sm now raw).completed_ = false := rfl
    rw [h0] at hc
    simp [SegmentData.GetCompleteSeg, hc]
  · intro hc
    simp [SegmentData.GetCompleteSeg, hc]
  · simp [SegmentData.GetCompleteSeg, SegmentData.Complete]
  · intro hL hsz
    obtain ⟨c1, c2, c3, c4⟩ := ctor_Inv L seg_id sm now raw hsz
    have hlt := GetSegmentSize_lt sm
    have hb : (SegmentData.ctor L seg_id sm now raw).segSize_ < UINT32 := by omega
    obtain ⟨⟨i1, i2, i3⟩, i4⟩ := run_Inv L hL ops _ c1 hb
    obtain ⟨_, _, _, r4, _⟩ := run_spec L hL ops _ c1 hb
    have hsum :=
      size_sum_ge_length L hL ((SegmentData.ctor L seg_id sm now raw).placed L ops)
    have hk := run_keyNum L ops (SegmentData.ctor L seg_id sm now raw)
    have hk0 : (SegmentData.ctor L seg_id sm now raw).keyNum_ = 0 := rfl
    have hklt := run_keyNum_lt L ops (SegmentData.ctor L seg_id sm now raw)
      (by rw [hk0]; unfold UINT32; omega)
    have hkey : ((SegmentData.ctor L seg_id sm now raw).run L ops).keyNum_
        = ((SegmentData.ctor L seg_id sm now raw).placed L ops).length := by
      rw [hk0, Nat.zero_add, Nat.mod_eq_of_lt hklt, Nat.mod_eq_of_lt (by omega)] at hk
      exact hk
    obtain ⟨d1, _⟩ := Complete_data L ((SegmentData.ctor L seg_id sm now raw).run L ops)
    refine ⟨hkey, ?_⟩
    intro i hi
    rw [d1 i hi, hkey]

/-- Instance of C7: two records offered to a fresh 8192-byte segment, and the example
calls followed by `Complete`, whose header then carries the count 3. -/
theorem C7_GetCompleteSeg_only_after_Complete_witness :
    exLayout.WF ∧ exLayout.sizeofSegmentOnDisk ≤ exManager.GetSegmentSize ∧
      ((exSeg 8192).run exLayout
        ([(exSlice 10 0, exHeader 10), (exSlice 4096 5, exHeader 4096)].map
          (fun r => Op.put r.1 r.2))).GetCompleteSeg = none ∧
      ((exSeg 8192).run exLayout exOps).keyNum_ = 3 ∧
      ((exSeg 8192).placed exLayout exOps).length = 3 ∧
      (∀ i, i < exLayout.sizeofSegmentOnDisk →
        (((exSeg 8192).run exLayout exOps).Complete exLayout).data_ i
          = exLayout.segOnDisk ((exSeg 8192).placed exLayout exOps).length i) ∧
      (List.range 32).map (((exSeg 8192).run exLayout exOps).Complete exLayout).data_
        = [0, 0, 0, 0, 0, 0, 0, 0, 0, 0, 0, 0, 0, 0, 0, 0,
           0, 0, 0, 0, 0, 0, 0, 0, 0, 0, 0, 0, 3, 0, 0, 0] :=
  have r := C7_GetCompleteSeg_only_after_Complete exLayout 1 exManager 0
    (fun _ => 170) [(exSlice 10 0, exHeader 10), (exSlice 4096 5, exHeader 4096)] exOps
    (exSeg 8192)
  have r6 := r.2.2.2.2.2 (by decide) (by decide)
  ⟨by decide, by decide, r.2.1, by decide, by decide, r6.2, by decide⟩

/-- C8, as the code refutes it: `Put` on a completed segment is accepted and moves
`headPos_` from 32 to 74, raises `keyNum_` from 0 to 1 and overwrites buffer byte 32,
while the committed header still carries key count 0. -/
theorem C8_Put_after_Complete_is_applied :
    ((exSeg 128).Complete exLayout).completed_ = true ∧
      (((exSeg 128).Complete exLayout).Put exLayout (exSlice 10 0) (exHeader 10)).1 = true ∧
      ((exSeg 128).Complete exLayout).headPos_ = 32 ∧
      (((exSeg 128).Complete exLayout).Put exLayout (exSlice 10 0)
        (exHeader 10)).2.headPos_ = 74 ∧
      ((exSeg 128).Complete exLayout).keyNum_ = 0 ∧
      (((exSeg 128).Complete exLayout).Put exLayout (exSlice 10 0)
        (exHeader 10)).2.keyNum_ = 1 ∧
      ((exSeg 128).Complete exLayout).data_ 32 = 170 ∧
      (((exSeg 128).Complete exLayout).Put exLayout (exSlice 10 0)
        (exHeader 10)).2.data_ 32 = 1 ∧
      (List.range 32).map (((exSeg 128).Complete exLayout).Put exLayout (exSlice 10 0)
        (exHeader 10)).2.data_ = (List.range 32).map (exLayout.segOnDisk 0) ∧
      (((exSeg 128).Complete exLayout).Put exLayout (exSlice 10 0)
        (exHeader 10)).2.headPos_ ≠ ((exSeg 128).Complete exLayout).headPos_ ∧
      (((exSeg 128).Complete exLayout).Put exLayout (exSlice 10 0)
        (exHeader 10)).2.keyNum_ ≠ ((exSeg 128).Complete exLayout).keyNum_ ∧
      (((exSeg 128).Complete exLayout).Put exLayout (exSlice 10 0)
        (exHeader 10)).2.data_ 32 ≠ ((exSeg 128).Complete exLayout).data_ 32 := by
  decide

/-- C8, amended: `Put` neither reads nor changes the completed flag. On a completed
segment (with the cursor invariant) a `Put` returns what it returns on the same
segment not completed and has the same effect: rejected, it leaves the segment
unchanged; accepted, it advances the cursors by the record size and increments
`keyNum_`. In both cases the segment stays completed and the committed header bytes
`[0, sizeof(SegmentOnDisk))` are not written. -/
theorem C8_Put_on_completed_segment (L : Layout) (hL : L.WF) (s : SegmentData)
    (slice : KVSlice) (header : DataHeader) (hI : s.Inv L) (hb : s.segSize_ < UINT32)
    (hc : s.completed_ = true) :
    (s.Put L slice header).1 = ({ s with completed_ := false }.Put L slice header).1 ∧
      (s.Put L slice header).2
        = { ({ s with completed_ := false }.Put L slice header).2 with
            completed_ := true } ∧
      (s.Put L slice header).2.completed_ = true ∧
      ((s.Put L slice header).1 = false → (s.Put L slice header).2 = s) ∧
      ((s.Put L slice header).1 = true →
        (s.Put L slice header).2.keyNum_ = (s.keyNum_ + 1) % UINT32 ∧
        (s.Put L slice header).2.headPos_ + s.tailPos_
          = s.headPos_ + (s.Put L slice header).2.tailPos_
            + (L.sizeofDataHeader + slice.GetDataLen)) ∧
      (∀ i, i < L.sizeofSegmentOnDisk → (s.Put L slice header).2.data_ i = s.data_ i) := by
  obtain ⟨e1, e2⟩ := Put_completed_irrelevant L s slice header false
  have hfr := (Put_frame L s slice header).2.2.2
  refine ⟨e1.symm, ?_, by rw [hfr, hc], step_put_rejected L s slice header, ?_, ?_⟩
  · rw [e2]
    have h : (s.Put L slice header).2.completed_ = true := by rw [hfr, hc]
    cases hp : (s.Put L slice header).2 with
    | mk a b c d e f g h' =>
      rw [hp] at h
      simp only at h
      simp [h]
  · intro hacc
    obtain ⟨_, a2, _, a4, _, _⟩ := Put_accepted L hL s slice header hI hb hacc
    refine ⟨a4, ?_⟩
    rcases a2 with ⟨_, b2, b3, b4, _⟩ | ⟨_, b3, b4, _⟩ <;> omega
  · intro i hi
    exact Put_outside L hL s slice header hI hb i (Or.inl (by have := hI.1; omega))

/-- Instance of the amended C8: a 10-byte record offered to a completed 128-byte
segment. -/
theorem C8_Put_on_completed_segment_witness :
    exLayout.WF ∧ ((exSeg 128).Complete exLayout).Inv exLayout ∧
      ((exSeg 128).Complete exLayout).segSize_ < UINT32 ∧
      ((exSeg 128).Complete exLayout).completed_ = true ∧
      (((exSeg 128).Complete exLayout).Put exLayout (exSlice 10 0)
        (exHeader 10)).2.completed_ = true ∧
      (∀ i, i < exLayout.sizeofSegmentOnDisk →
        (((exSeg 128).Complete exLayout).Put exLayout (exSlice 10 0) (exHeader 10)).2.data_ i
          = ((exSeg 128).Complete exLayout).data_ i) :=
  have r := C8_Put_on_completed_segment exLayout (by decide)
    ((exSeg 128).Complete exLayout) (exSlice 10 0) (exHeader 10) (by decide) (by decide)
    (by decide)
  ⟨by decide, by decide, by decide, by decide, r.2.2.1, r.2.2.2.2.2⟩

/-! ## Request status -/

/-- C9, as the code refutes it: after `SetState(true)` a later `SetState(false)`
changes the observed write status to false. -/
theorem C9_second_SetState_overwrites :
    ((Request.ctor (exSlice 1 0)).SetState true).GetWriteStat = true ∧
      (((Request.ctor (exSlice 1 0)).SetState true).SetState false).GetWriteStat = false ∧
      (((Request.ctor (exSlice 1 0)).SetState true).SetState false).GetWriteStat
        ≠ ((Request.ctor (exSlice 1 0)).SetState true).GetWriteStat := by
  decide

/-- C9, amended: a freshly constructed `Request` is not done and its write status is
not success; every `SetState(s)` sets the observed write status to `s` whatever it was
before, so the status read is the value passed to the most recent `SetState`;
`SetState` leaves the done flag alone and `Done` leaves the write status alone. -/
theorem C9_SetState_last_call_wins (slice : KVSlice) (r : Request) (s s' : Bool) :
    (Request.ctor slice).m_done = 0 ∧ (Request.ctor slice).GetWriteStat = false ∧
      (r.SetState s).GetWriteStat = s ∧
      ((r.SetState s).SetState s').GetWriteStat = s' ∧
      (r.SetState s).m_done = r.m_done ∧
      r.Done.m_done = 1 ∧ r.Done.GetWriteStat = r.GetWriteStat ∧
      ((r.SetState s).Done.SetState s').GetWriteStat = s' := by
  simp [Request.ctor, Request.SetState, Request.Done, Request.GetWriteStat]

/-! ## KVSlice: digest computation -/

theorem ComputeDigest_null (E : DigestEngine) (slice : KVSlice) (h : slice.m_key = none) :
    slice.ComputeDigest E = { ret := false, slice := slice, engineCalls := 0 } := by
  simp [KVSlice.ComputeDigest, h]

theorem ComputeDigest_fail (E : DigestEngine) (slice : KVSlice) (k : Mem)
    (h : slice.m_key = some k) (hE : (E k slice.m_keyLen).1 = false) :
    slice.ComputeDigest E
      = { ret := false
          slice := { slice with m_digest := some (E k slice.m_keyLen).2 }
          engineCalls := 1 } := by
  simp [KVSlice.ComputeDigest, h, hE]

theorem ComputeDigest_ok (E : DigestEngine) (slice : KVSlice) (k : Mem)
    (h : slice.m_key = some k) (hE : (E k slice.m_keyLen).1 = true) :
    slice.ComputeDigest E
      = { ret := true
          slice := { slice with m_digest := some (E k slice.m_keyLen).2, m_Iscomputed := true }
          engineCalls := 1 } := by
  simp [KVSlice.ComputeDigest, h, hE]

/-- C11: on a slice whose key pointer is `NULL`, `ComputeDigest` returns false, leaves the
slice (its digest and its digest-computed flag included) unchanged and does not invoke
the engine; on a slice with a key for which the engine succeeds it returns true, sets
the flag and stores the engine's digest of (key, key length), leaving key, lengths and
data as they were. -/
theorem C11_ComputeDigest_needs_a_key (E : DigestEngine) (slice : KVSlice) :
    (slice.m_key = none →
        (slice.ComputeDigest E).ret = false ∧
        (slice.ComputeDigest E).slice.m_digest = slice.m_digest ∧
        (slice.ComputeDigest E).slice.m_Iscomputed = slice.m_Iscomputed ∧
        (slice.ComputeDigest E).slice = slice ∧
        (slice.ComputeDigest E).engineCalls = 0) ∧
      (∀ k, slice.m_key = some k → (E k slice.m_keyLen).1 = true →
        (slice.ComputeDigest E).ret = true ∧
        (slice.ComputeDigest E).slice.IsDigestComputed = true ∧
        (slice.ComputeDigest E).slice.GetDigest = some (E k slice.m_keyLen).2 ∧
        (slice.ComputeDigest E).slice.m_key = slice.m_key ∧
        (slice.ComputeDigest E).slice.m_keyLen = slice.m_keyLen ∧
        (slice.ComputeDigest E).slice.m_data = slice.m_data ∧
        (slice.ComputeDigest E).slice.m_dataLen = slice.m_dataLen) := by
  constructor
  · intro h
    rw [ComputeDigest_null E slice h]
    simp
  · intro k h hE
    rw [ComputeDigest_ok E slice k h hE]
    simp [KVSlice.IsDigestComputed, KVSlice.GetDigest, h]

/-- Instance of C11: the default-constructed slice (no key) and a slice over a
three-byte key. -/
theorem C11_ComputeDigest_needs_a_key_witness :
    KVSlice.default.m_key = none ∧
      (KVSlice.default.ComputeDigest exEngine).ret = false ∧
      (KVSlice.default.ComputeDigest exEngine).slice = KVSlice.default ∧
      (exEngine (fun i => 65 + i) 3).1 = true ∧
      ((exKV 5).ComputeDigest exEngine).ret = true ∧
      ((exKV 5).ComputeDigest exEngine).slice.IsDigestComputed = true ∧
      ((exKV 5).ComputeDigest exEngine).slice.GetDigest = some { value := [65, 66, 67] } :=
  have r := C11_ComputeDigest_needs_a_key exEngine KVSlice.default
  have r1 := r.1 rfl
  have q := (C11_ComputeDigest_needs_a_key exEngine (exKV 5)).2 (fun i => 65 + i) rfl
    (by decide)
  ⟨rfl, r1.1, r1.2.2.2.1, by decide, q.1, q.2.1, by decide⟩

/-- C12, as the code refutes it: on a slice whose flag is already set, a second
`ComputeDigest` invokes the digest engine again (once more, not zero times). -/
theorem C12_ComputeDigest_recomputes :
    ((exKV 5).ComputeDigest exEngine).slice.m_Iscomputed = true ∧
      (((exKV 5).ComputeDigest exEngine).slice.ComputeDigest exEngine).engineCalls = 1 ∧
      (((exKV 5).ComputeDigest exEngine).slice.ComputeDigest exEngine).engineCalls ≠ 0 := by
  decide

/-- C12, amended: `ComputeDigest` does not consult the digest-computed flag; every call
on a slice with a key invokes the engine once and stores a new digest object. The
engine being a function of key and key length, a call on a slice whose flag is set and
whose stored digest is the engine's digest of the current key returns true and leaves
the slice's values (digest and flag included) as they were, and for every slice calling
`ComputeDigest` twice yields the same slice state and the same return value as calling
it once. -/
theorem C12_ComputeDigest_recomputes_the_same_value (E : DigestEngine) (slice : KVSlice) :
    (∀ k, slice.m_key = some k → (slice.ComputeDigest E).engineCalls = 1) ∧
      (slice.m_Iscomputed = true → slice.DigestValid E →
        (slice.ComputeDigest E).ret = true ∧ (slice.ComputeDigest E).slice = slice) ∧
      ((slice.ComputeDigest E).slice.ComputeDigest E).slice = (slice.ComputeDigest E).slice ∧
      ((slice.ComputeDigest E).slice.ComputeDigest E).ret = (slice.ComputeDigest E).ret := by
  refine ⟨?_, ?_, ?_⟩
  · intro k h
    cases hE : (E k slice.m_keyLen).1 with
    | false => rw [ComputeDigest_fail E slice k h hE]
    | true => rw [ComputeDigest_ok E slice k h hE]
  · intro hc hv
    obtain ⟨k, hk, hE, hd⟩ := hv hc
    rw [ComputeDigest_ok E slice k hk hE]
    refine ⟨rfl, ?_⟩
    cases slice with
    | mk a b c d e f =>
      simp only at hc hd
      simp [hc, hd]
  · cases hk : slice.m_key with
    | none =>
      rw [ComputeDigest_null E slice hk, ComputeDigest_null E slice hk]
      simp
    | some k =>
      cases hE : (E k slice.m_keyLen).1 with
      | false =>
        rw [ComputeDigest_fail E slice k hk hE]
        have h2 := ComputeDigest_fail E
          { slice with m_digest := some (E k slice.m_keyLen).2 } k hk hE
        rw [h2]
        simp
      | true =>
        rw [ComputeDigest_ok E slice k hk hE]
        have h2 := ComputeDigest_ok E
          { slice with m_digest := some (E k slice.m_keyLen).2, m_Iscomputed := true }
          k hk hE
        rw [h2]
        simp

/-- Instance of the amended C12: a slice over a three-byte key, computed once. -/
theorem C12_ComputeDigest_recomputes_the_same_value_witness :
    ((exKV 5).ComputeDigest exEngine).slice.m_Iscomputed = true ∧
      (((exKV 5).ComputeDigest exEngine).slice.ComputeDigest exEngine).ret = true ∧
      (((exKV 5).ComputeDigest exEngine).slice.ComputeDigest exEngine).slice
        = ((exKV 5).ComputeDigest exEngine).slice ∧
      (((exKV 5).ComputeDigest exEngine).slice.ComputeDigest exEngine).engineCalls = 1 :=
  have r := C12_ComputeDigest_recomputes_the_same_value exEngine
    ((exKV 5).ComputeDigest exEngine).slice
  have q := r.2.1 (by decide) (fun _ => ⟨fun i => 65 + i, rfl, by decide, rfl⟩)
  ⟨by decide, q.1, q.2, r.1 (fun i => 65 + i) rfl⟩

/-! ## KVSlice: the digest stays the digest of the current key -/

theorem SetKeyValue_DigestValid (E : DigestEngine) (slice : KVSlice) (key : CharPtr)
    (key_len : Int) (data : CharPtr) (data_len : Int) :
    (slice.SetKeyValue key key_len data data_len).DigestValid E := by
  intro h
  simp [KVSlice.SetKeyValue] at h

theorem ComputeDigest_DigestValid (E : DigestEngine) (slice : KVSlice)
    (hv : slice.DigestValid E) : (slice.ComputeDigest E).slice.DigestValid E := by
  cases hk : slice.m_key with
  | none =>
    rw [ComputeDigest_null E slice hk]
    exact hv
  | some k =>
    cases hE : (E k slice.m_keyLen).1 with
    | false =>
      rw [ComputeDigest_fail E slice k hk hE]
      intro hc
      obtain ⟨k1, hk1, hE1, _⟩ := hv hc
      rw [hk] at hk1
      cases hk1
      rw [hE] at hE1
      exact absurd hE1 (by simp)
    | true =>
      rw [ComputeDigest_ok E slice k hk hE]
      intro _
      exact ⟨k, hk, hE, rfl⟩

theorem runOps_DigestValid (E : DigestEngine) (ops : List SliceOp) :
    ∀ slice : KVSlice, slice.DigestValid E → (slice.runOps E ops).DigestValid E := by
  induction ops with
  | nil => intro slice hv; exact hv
  | cons op ops ih =>
    intro slice hv
    cases op with
    | setKeyValue key key_len data data_len =>
      exact ih _ (SetKeyValue_DigestValid E slice key key_len data data_len)
    | computeDigest => exact ih _ (ComputeDigest_DigestValid E slice hv)

/-- C18, as the code refutes it: `SetKeyValue` with data length 69632 stores 4096 in the
16-bit data length, and with key length -1 stores 4294967295 in the 32-bit key length,
so the lengths of the slice are not its arguments. -/
theorem C18_SetKeyValue_converts_the_lengths :
    (KVSlice.default.SetKeyValue (some (fun i => 65 + i)) 3 (some (fun i => i % 256))
        69632).m_dataLen = 4096 ∧
      (KVSlice.default.SetKeyValue (some (fun i => 65 + i)) 3 (some (fun i => i % 256))
        69632).m_dataLen ≠ 69632 ∧
      (KVSlice.default.SetKeyValue (some (fun i => 65 + i)) 3 (some (fun i => i % 256))
        69632).GetDataLen = 4096 ∧
      (KVSlice.default.SetKeyValue (some (fun i => 65 + i)) (-1) (some (fun i => i % 256))
        5).m_keyLen = 4294967295 ∧
      (KVSlice.default.SetKeyValue (some (fun i => 65 + i)) (-1) (some (fun i => i % 256))
        5).m_keyLen ≠ -1 := by
  decide

/-- C18, amended: in every state reached from a constructor by `SetKeyValue` and
`ComputeDigest` calls, with an engine that is a function of key and key length and
succeeds on some keys and fails on others, a set digest-computed flag means that the key
is set, the engine succeeds on (key, stored key length) and the stored digest is the
engine's digest of them; and `SetKeyValue` clears the flag, stores its key and data
pointers, and stores the key length modulo `2^32` and the data length modulo `2^16`,
which are the arguments themselves when they lie in `0 .. 2^32 - 1` and
`0 .. 65535`. -/
theorem C18_flag_implies_digest_of_current_key (E : DigestEngine) (start : KVSlice)
    (key0 : CharPtr) (key_len0 : Int) (data0 : CharPtr) (data_len0 : Int)
    (hstart : start = KVSlice.default ∨ start = KVSlice.ctor key0 key_len0 data0 data_len0)
    (ops : List SliceOp) (slice : KVSlice) (key : CharPtr) (key_len : Int)
    (data : CharPtr) (data_len : Int) :
    ((start.runOps E ops).IsDigestComputed = true →
        ∃ k, (start.runOps E ops).GetKey = some k ∧
          (E k (start.runOps E ops).m_keyLen).1 = true ∧
          (start.runOps E ops).GetDigest = some (E k (start.runOps E ops).m_keyLen).2) ∧
      (slice.SetKeyValue key key_len data data_len).IsDigestComputed = false ∧
      (slice.SetKeyValue key key_len data data_len).m_key = key ∧
      (slice.SetKeyValue key key_len data data_len).m_data = data ∧
      (slice.SetKeyValue key key_len data data_len).m_keyLen = key_len % 4294967296 ∧
      (slice.SetKeyValue key key_len data data_len).m_dataLen = data_len % 65536 ∧
      (slice.SetKeyValue key key_len data data_len).m_digest = slice.m_digest ∧
      (0 ≤ key_len → key_len < 4294967296 →
        (slice.SetKeyValue key key_len data data_len).m_keyLen = key_len) ∧
      (0 ≤ data_len → data_len < 65536 →
        (slice.SetKeyValue key key_len data data_len).m_dataLen = data_len ∧
        ((slice.SetKeyValue key key_len data data_len).GetDataLen : Int) = data_len) := by
  have hk : (slice.SetKeyValue key key_len data data_len).m_keyLen
      = key_len % 4294967296 := rfl
  have hdl : (slice.SetKeyValue key key_len data data_len).m_dataLen
      = data_len % 65536 := rfl
  refine ⟨?_, rfl, rfl, rfl, hk, hdl, rfl, ?_, ?_⟩
  · have h0 : start.DigestValid E := by
      intro h
      rcases hstart with h1 | h1 <;> rw [h1] at h <;>
        simp [KVSlice.default, KVSlice.ctor] at h
    exact runOps_DigestValid E ops start h0
  · intro h0 h1
    rw [hk]
    omega
  · intro h0 h1
    simp only [KVSlice.GetDataLen, hdl]
    omega

/-- Instance of the amended C18: compute, change the key to an empty one (the engine fails on it),
compute again, then set a new key and compute. -/
theorem C18_flag_implies_digest_of_current_key_witness :
    (exKV 5 = KVSlice.default ∨ exKV 5
        = KVSlice.ctor (some (fun i => 65 + i)) 3 (some (fun i => i % 256)) 5) ∧
      ((exKV 5).runOps exEngine
          [SliceOp.computeDigest, SliceOp.setKeyValue (some (fun _ => 1)) 0 none 0,
           SliceOp.computeDigest, SliceOp.setKeyValue (some (fun i => 2 * i)) 2 none 0,
           SliceOp.computeDigest]).GetDigest = some { value := [0, 2] } ∧
      (((exKV 5).runOps exEngine
          [SliceOp.computeDigest, SliceOp.setKeyValue (some (fun _ => 1)) 0 none 0,
           SliceOp.computeDigest, SliceOp.setKeyValue (some (fun i => 2 * i)) 2 none 0,
           SliceOp.computeDigest]).IsDigestComputed = true →
        ∃ k, ((exKV 5).runOps exEngine
            [SliceOp.computeDigest, SliceOp.setKeyValue (some (fun _ => 1)) 0 none 0,
             SliceOp.computeDigest, SliceOp.setKeyValue (some (fun i => 2 * i)) 2 none 0,
             SliceOp.computeDigest]).GetKey = some k ∧
          (exEngine k ((exKV 5).runOps exEngine
            [SliceOp.computeDigest, SliceOp.setKeyValue (some (fun _ => 1)) 0 none 0,
             SliceOp.computeDigest, SliceOp.setKeyValue (some (fun i => 2 * i)) 2 none 0,
             SliceOp.computeDigest]).m_keyLen).1 = true ∧
          ((exKV 5).runOps exEngine
            [SliceOp.computeDigest, SliceOp.setKeyValue (some (fun _ => 1)) 0 none 0,
             SliceOp.computeDigest, SliceOp.setKeyValue (some (fun i => 2 * i)) 2 none 0,
             SliceOp.computeDigest]).GetDigest
            = some (exEngine k ((exKV 5).runOps exEngine
              [SliceOp.computeDigest, SliceOp.setKeyValue (some (fun _ => 1)) 0 none 0,
               SliceOp.computeDigest,
               SliceOp.setKeyValue (some (fun i => 2 * i)) 2 none 0,
               SliceOp.computeDigest]).m_keyLen).2) :=
  ⟨Or.inr rfl, by decide,
    (C18_flag_implies_digest_of_current_key exEngine (exKV 5) (some (fun i => 65 + i)) 3
      (some (fun i => i % 256)) 5 (Or.inr rfl)
      [SliceOp.computeDigest, SliceOp.setKeyValue (some (fun _ => 1)) 0 none 0,
       SliceOp.computeDigest, SliceOp.setKeyValue (some (fun i => 2 * i)) 2 none 0,
       SliceOp.computeDigest] KVSlice.default none 0 none 0).1⟩

/-! ## KVSlice: copies -/

theorem copyCtor_none (toBeCopied : KVSlice) : KVSlice.copyCtor toBeCopied = none := by
  simp [KVSlice.copyCtor, KVSlice.copy_helper]

/-- C19, evaluated on the code: copy construction dereferences the `NULL` digest pointer
of the new object, whether the source digest has been computed or not, and copy
assignment does so whenever the target or the source has no digest; only an assignment
between two slices that both own a digest completes, and it copies the values. -/
theorem C19_copy_dereferences_NULL_digest :
    KVSlice.copyCtor (exKV 5) = none ∧
      ((exKV 5).ComputeDigest exEngine).slice.m_digest = some { value := [65, 66, 67] } ∧
      KVSlice.copyCtor ((exKV 5).ComputeDigest exEngine).slice = none ∧
      KVSlice.assign (exKV 7) ((exKV 5).ComputeDigest exEngine).slice = none ∧
      KVSlice.assign ((exKV 7).ComputeDigest exEngine).slice (exKV 5) = none ∧
      (KVSlice.assign ((exKV 7).ComputeDigest exEngine).slice
          ((exKV 5).ComputeDigest exEngine).slice).isSome = true := by
  refine ⟨rfl, by decide, rfl, rfl, rfl, rfl⟩

/-! ## SegmentData: expiry and the write check -/

theorem step_creTime (L : Layout) (s : SegmentData) (op : Op) :
    (s.step L op).creTime_ = s.creTime_ := by
  cases op with
  | put slice header => exact (Put_frame L s slice header).2.2.1
  | complete => rfl

theorem run_creTime (L : Layout) (ops : List Op) :
    ∀ s : SegmentData, (s.run L ops).creTime_ = s.creTime_ := by
  induction ops with
  | nil => intro s; rfl
  | cons op ops ih =>
    intro s
    have hrun : s.run L (op :: ops) = (s.step L op).run L ops := rfl
    rw [hrun, ih, step_creTime]

/-- C13: with time counted exactly, `isExpire` at the creation time of a constructed
segment is false for a non-negative timeout; on every segment it is true exactly when
the time elapsed since `creTime_` exceeds `EXPIRED_TIME`; and no `Put` (accepted or
rejected), no `Complete` and no sequence of them changes `creTime_` or the outcome of
`isExpire` at any time. -/
theorem C13_isExpire_depends_on_elapsed_time_only (L : Layout) (seg_id : Nat)
    (sm : SegmentManager) (now : Int) (raw : Mem) (EXPIRED_TIME : Int)
    (hT : 0 ≤ EXPIRED_TIME) (s : SegmentData) (t : Int) (slice : KVSlice)
    (header : DataHeader) (ops : List Op) :
    (SegmentData.ctor L seg_id sm now raw).isExpire EXPIRED_TIME now = false ∧
      (s.isExpire EXPIRED_TIME t = true ↔ t - s.creTime_ > EXPIRED_TIME) ∧
      (s.Put L slice header).2.creTime_ = s.creTime_ ∧
      (s.Put L slice header).2.isExpire EXPIRED_TIME t = s.isExpire EXPIRED_TIME t ∧
      (s.Complete L).creTime_ = s.creTime_ ∧
      (s.Complete L).isExpire EXPIRED_TIME t = s.isExpire EXPIRED_TIME t ∧
      (s.run L ops).creTime_ = s.creTime_ ∧
      (s.run L ops).isExpire EXPIRED_TIME t = s.isExpire EXPIRED_TIME t := by
  have hp := (Put_frame L s slice header).2.2.1
  have hr := run_creTime L ops s
  have hc : (s.Complete L).creTime_ = s.creTime_ := rfl
  refine ⟨?_, ?_, hp, ?_, hc, ?_, hr, ?_⟩
  · have e : (SegmentData.ctor L seg_id sm now raw).creTime_ = now := rfl
    simp only [SegmentData.isExpire, e, decide_eq_false_iff_not]
    omega
  · simp [SegmentData.isExpire]
  · simp only [SegmentData.isExpire, hp]
  · simp only [SegmentData.isExpire, hc]
  · simp only [SegmentData.isExpire, hr]

/-- Instance of C13: a segment created at time 0 with timeout 10, asked at time 10 (not
expired) after the example calls. -/
theorem C13_isExpire_depends_on_elapsed_time_only_witness :
    (0 : Int) ≤ 10 ∧ (exSeg 8192).isExpire 10 0 = false ∧
      ((exSeg 8192).run exLayout exOps).isExpire 10 10 = (exSeg 8192).isExpire 10 10 ∧
      (exSeg 8192).isExpire 10 10 = false ∧ (exSeg 8192).isExpire 10 11 = true :=
  have r := C13_isExpire_depends_on_elapsed_time_only exLayout 1 { segSize := 8192 } 0
    (fun _ => 170) 10 (by decide) (exSeg 8192) 10 (exSlice 10 0) (exHeader 10) exOps
  ⟨by decide, r.1, r.2.2.2.2.2.2.2, by decide, by decide⟩

/-- C20: `IsCanWrite` is false whenever the segment is expired, whatever the free space,
and is the fit check otherwise; so when `IsCanWrite` is true a `Put` of the same slice on
the same state returns true; `Put` itself returns the fit check whatever the time, so an
expired segment still accepts a record that fits. -/
theorem C20_IsCanWrite_is_expiry_then_fit (L : Layout) (s : SegmentData)
    (EXPIRED_TIME nowTime : Int) (slice : KVSlice) (header : DataHeader) :
    (s.isExpire EXPIRED_TIME nowTime = true →
        s.IsCanWrite L EXPIRED_TIME nowTime slice = false) ∧
      (s.isExpire EXPIRED_TIME nowTime = false →
        s.IsCanWrite L EXPIRED_TIME nowTime slice = s.isCanFit L slice) ∧
      (s.IsCanWrite L EXPIRED_TIME nowTime slice = true →
        (s.Put L slice header).1 = true) ∧
      (s.Put L slice header).1 = s.isCanFit L slice ∧
      (s.isExpire EXPIRED_TIME nowTime = true → s.isCanFit L slice = true →
        (s.Put L slice header).1 = true ∧
          s.IsCanWrite L EXPIRED_TIME nowTime slice = false) := by
  have hp := Put_fst L s slice header
  refine ⟨?_, ?_, ?_, hp, ?_⟩
  · intro h
    simp [SegmentData.IsCanWrite, h]
  · intro h
    simp [SegmentData.IsCanWrite, h]
  · intro h
    rw [hp]
    cases he : s.isExpire EXPIRED_TIME nowTime with
    | true => simp [SegmentData.IsCanWrite, he] at h
    | false => simpa [SegmentData.IsCanWrite, he] using h
  · intro he hf
    rw [hp]
    exact ⟨hf, by simp [SegmentData.IsCanWrite, he]⟩

/-- Instance of C20: a 128-byte segment created at time 0 with timeout 10; at time 5 a
10-byte record may be written, at time 100 the segment is expired and `IsCanWrite` is
false although `Put` still accepts the record. -/
theorem C20_IsCanWrite_is_expiry_then_fit_witness :
    (exSeg 128).IsCanWrite exLayout 10 5 (exSlice 10 0) = true ∧
      ((exSeg 128).Put exLayout (exSlice 10 0) (exHeader 10)).1 = true ∧
      (exSeg 128).isExpire 10 100 = true ∧
      (exSeg 128).IsCanWrite exLayout 10 100 (exSlice 10 0) = false :=
  have r := C20_IsCanWrite_is_expiry_then_fit exLayout (exSeg 128) 10 5 (exSlice 10 0)
    (exHeader 10)
  have q := C20_IsCanWrite_is_expiry_then_fit exLayout (exSeg 128) 10 100 (exSlice 10 0)
    (exHeader 10)
  ⟨by decide, r.2.2.1 (by decide), by decide, q.1 (by decide)⟩

/-! ## The aligned test and the 16-bit payload length -/

theorem GetDataLen_ctor (key : CharPtr) (key_len : Int) (data : CharPtr) (data_len : Int) :
    ((KVSlice.ctor key key_len data data_len).GetDataLen : Int) = data_len % 65536 := by
  simp only [KVSlice.GetDataLen, KVSlice.ctor]
  omega

/-- C14, as the code refutes it: a value of length 69632 = 65536 + 4096 is reported as
aligned although its length is not the block size 4096, and `Put` sends it down the tail
path (the tail cursor of a fresh 8192-byte segment drops to 4096). -/
theorem C14_length_69632_counts_as_aligned :
    (exKV 69632).IsAlignedData 4096 = true ∧ (69632 : Int) ≠ 4096 ∧
      (exKV 69632).GetDataLen = 4096 ∧ (exKV 69632).Is4KData = true ∧
      ((exSeg 8192).Put exLayout (exKV 69632) (exHeader 0)).1 = true ∧
      ((exSeg 8192).Put exLayout (exKV 69632) (exHeader 0)).2.tailPos_ = 4096 := by
  decide

/-- C14, amended: for a slice built from the `int` length `len` by the constructor or by
`SetKeyValue`, `IsAlignedData` returns true exactly when `len` modulo `2^16` equals
`ALIGNED_SIZE`; for `0 <= len < 65536` that is exactly when `len` equals
`ALIGNED_SIZE`. With the block size 4096 it coincides with the test `Put` branches on, and
an accepted `Put` takes the tail path `put4K` exactly for these slices and the head path
`putNon4K` for all others. -/
theorem C14_IsAlignedData_compares_low_16_bits (ALIGNED_SIZE : Nat) (key : CharPtr)
    (key_len : Int) (data : CharPtr) (len : Int) (slice0 : KVSlice) (L : Layout)
    (s : SegmentData) (header : DataHeader) :
    ((KVSlice.ctor key key_len data len).IsAlignedData ALIGNED_SIZE = true ↔
        len % 65536 = ALIGNED_SIZE) ∧
      ((slice0.SetKeyValue key key_len data len).IsAlignedData ALIGNED_SIZE = true ↔
        len % 65536 = ALIGNED_SIZE) ∧
      (0 ≤ len → len < 65536 →
        ((KVSlice.ctor key key_len data len).IsAlignedData ALIGNED_SIZE = true ↔
          len = ALIGNED_SIZE)) ∧
      (KVSlice.ctor key key_len data len).IsAlignedData 4096
        = (KVSlice.ctor key key_len data len).Is4KData ∧
      (s.isCanFit L (KVSlice.ctor key key_len data len) = true → len % 65536 = 4096 →
        s.Put L (KVSlice.ctor key key_len data len) header
          = (true, s.put4K L (KVSlice.ctor key key_len data len) header)) ∧
      (s.isCanFit L (KVSlice.ctor key key_len data len) = true → len % 65536 ≠ 4096 →
        s.Put L (KVSlice.ctor key key_len data len) header
          = (true, s.putNon4K L (KVSlice.ctor key key_len data len) header)) := by
  have hg := GetDataLen_ctor key key_len data len
  have hs : (slice0.SetKeyValue key key_len data len).GetDataLen
      = (KVSlice.ctor key key_len data len).GetDataLen := rfl
  refine ⟨?_, ?_, ?_, rfl, ?_, ?_⟩
  · simp only [KVSlice.IsAlignedData, beq_iff_eq]
    omega
  · simp only [KVSlice.IsAlignedData, beq_iff_eq, hs]
    omega
  · intro h0 h1
    simp only [KVSlice.IsAlignedData, beq_iff_eq]
    omega
  · intro hfit hlen
    apply Put_4K L s _ header hfit
    rw [Is4KData_iff]
    omega
  · intro hfit hlen
    apply Put_non4K L s _ header hfit
    cases h4 : (KVSlice.ctor key key_len data len).Is4KData with
    | false => rfl
    | true =>
      rw [Is4KData_iff] at h4
      omega

/-- Instance of the amended C14: lengths 4096 and 69632 are both reported as aligned, and
length 4097 is not. -/
theorem C14_IsAlignedData_compares_low_16_bits_witness :
    ((exKV 4096).IsAlignedData 4096 = true ↔ (4096 : Int) % 65536 = (4096 : Nat)) ∧
      ((exKV 69632).IsAlignedData 4096 = true ↔ (69632 : Int) % 65536 = (4096 : Nat)) ∧
      (exKV 4097).IsAlignedData 4096 = false ∧
      (exSeg 8192).Put exLayout (exKV 4096) (exHeader 0)
        = (true, (exSeg 8192).put4K exLayout (exKV 4096) (exHeader 0)) :=
  have r := C14_IsAlignedData_compares_low_16_bits 4096 (some (fun i => 65 + i)) 3
    (some (fun i => i % 256)) 4096 KVSlice.default exLayout (exSeg 8192) (exHeader 0)
  have q := C14_IsAlignedData_compares_low_16_bits 4096 (some (fun i => 65 + i)) 3
    (some (fun i => i % 256)) 69632 KVSlice.default exLayout (exSeg 8192) (exHeader 0)
  ⟨r.1, q.1, by decide, r.2.2.2.2.1 (by decide) (by decide)⟩

/-! ## What an accepted `Put` changes -/

/-- On a constructed segment the record counter is the number of placed records, and
that number stays below the bytes used between the two cursors. -/
theorem ctor_run_keyNum (L : Layout) (hL : L.WF) (seg_id : Nat) (sm : SegmentManager)
    (now : Int) (raw : Mem) (hsz : L.sizeofSegmentOnDisk ≤ sm.GetSegmentSize)
    (ops : List Op) :
    ((SegmentData.ctor L seg_id sm now raw).run L ops).keyNum_
        = ((SegmentData.ctor L seg_id sm now raw).placed L ops).length ∧
      ((SegmentData.ctor L seg_id sm now raw).placed L ops).length
          + ((SegmentData.ctor L seg_id sm now raw).run L ops).tailPos_
        ≤ ((SegmentData.ctor L seg_id sm now raw).run L ops).headPos_
          + sm.GetSegmentSize := by
  obtain ⟨c1, c2, c3, c4⟩ := ctor_Inv L seg_id sm now raw hsz
  have hlt := GetSegmentSize_lt sm
  have hb : (SegmentData.ctor L seg_id sm now raw).segSize_ < UINT32 := by omega
  obtain ⟨⟨i1, i2, i3⟩, i4⟩ := run_Inv L hL ops _ c1 hb
  obtain ⟨_, _, _, r4, _⟩ := run_spec L hL ops _ c1 hb
  have hsum :=
    size_sum_ge_length L hL ((SegmentData.ctor L seg_id sm now raw).placed L ops)
  have hk := run_keyNum L ops (SegmentData.ctor L seg_id sm now raw)
  have hk0 : (SegmentData.ctor L seg_id sm now raw).keyNum_ = 0 := rfl
  have hklt := run_keyNum_lt L ops (SegmentData.ctor L seg_id sm now raw)
    (by rw [hk0]; unfold UINT32; omega)
  rw [hk0, Nat.zero_add, Nat.mod_eq_of_lt hklt, Nat.mod_eq_of_lt (by omega)] at hk
  exact ⟨hk, by omega⟩

/-- C15, as the code refutes it: an accepted aligned `Put` on a fresh 8192-byte segment
moves `headPos_` from 32 to 64, since `put4K` also stores the record header at the
head. -/
theorem C15_aligned_Put_moves_headPos :
    ((exSeg 8192).Put exLayout (exSlice 4096 5) (exHeader 4096)).1 = true ∧
      (exSlice 4096 5).Is4KData = true ∧ (exSeg 8192).headPos_ = 32 ∧
      ((exSeg 8192).Put exLayout (exSlice 4096 5) (exHeader 4096)).2.headPos_ = 64 ∧
      ((exSeg 8192).Put exLayout (exSlice 4096 5) (exHeader 4096)).2.headPos_
        ≠ (exSeg 8192).headPos_ ∧
      ((exSeg 8192).Put exLayout (exSlice 4096 5) (exHeader 4096)).2.tailPos_ = 4096 := by
  decide

/-- C15, amended: for every `Put` accepted on a segment reached from the constructor, a
slice that is not aligned raises `headPos_` by `sizeof(DataHeader)` + payload length and
leaves `tailPos_`; an aligned slice lowers `tailPos_` by exactly 4096 and raises
`headPos_` by `sizeof(DataHeader)`; in both cases `keyNum_` grows by exactly 1 and the
segment id, segment size, creation time and completed flag are unchanged. Over any
further sequence of calls `headPos_` never decreases and `tailPos_` never increases. -/
theorem C15_accepted_Put_frame (L : Layout) (hL : L.WF) (seg_id : Nat)
    (sm : SegmentManager) (now : Int) (raw : Mem)
    (hsz : L.sizeofSegmentOnDisk ≤ sm.GetSegmentSize) (ops : List Op) (slice : KVSlice)
    (header : DataHeader)
    (hacc : (((SegmentData.ctor L seg_id sm now raw).run L ops).Put L slice header).1
      = true)
    (more : List Op) :
    (slice.Is4KData = false →
        (((SegmentData.ctor L seg_id sm now raw).run L ops).Put L slice header).2.headPos_
          = ((SegmentData.ctor L seg_id sm now raw).run L ops).headPos_
            + (L.sizeofDataHeader + slice.GetDataLen) ∧
        (((SegmentData.ctor L seg_id sm now raw).run L ops).Put L slice header).2.tailPos_
          = ((SegmentData.ctor L seg_id sm now raw).run L ops).tailPos_) ∧
      (slice.Is4KData = true →
        (((SegmentData.ctor L seg_id sm now raw).run L ops).Put L slice header).2.tailPos_
          = ((SegmentData.ctor L seg_id sm now raw).run L ops).tailPos_ - 4096 ∧
        4096 ≤ ((SegmentData.ctor L seg_id sm now raw).run L ops).tailPos_ ∧
        (((SegmentData.ctor L seg_id sm now raw).run L ops).Put L slice header).2.headPos_
          = ((SegmentData.ctor L seg_id sm now raw).run L ops).headPos_
            + L.sizeofDataHeader) ∧
      (((SegmentData.ctor L seg_id sm now raw).run L ops).Put L slice header).2.keyNum_
        = ((SegmentData.ctor L seg_id sm now raw).run L ops).keyNum_ + 1 ∧
      (((SegmentData.ctor L seg_id sm now raw).run L ops).Put L slice header).2.segId_
        = ((SegmentData.ctor L seg_id sm now raw).run L ops).segId_ ∧
      (((SegmentData.ctor L seg_id sm now raw).run L ops).Put L slice header).2.segSize_
        = ((SegmentData.ctor L seg_id sm now raw).run L ops).segSize_ ∧
      (((SegmentData.ctor L seg_id sm now raw).run L ops).Put L slice header).2.creTime_
        = ((SegmentData.ctor L seg_id sm now raw).run L ops).creTime_ ∧
      (((SegmentData.ctor L seg_id sm now raw).run L ops).Put L slice header).2.completed_
        = ((SegmentData.ctor L seg_id sm now raw).run L ops).completed_ ∧
      ((SegmentData.ctor L seg_id sm now raw).run L ops).headPos_
        ≤ (((SegmentData.ctor L seg_id sm now raw).run L ops).run L more).headPos_ ∧
      (((SegmentData.ctor L seg_id sm now raw).run L ops).run L more).tailPos_
        ≤ ((SegmentData.ctor L seg_id sm now raw).run L ops).tailPos_ := by
  obtain ⟨c1, c2, c3, c4⟩ := ctor_Inv L seg_id sm now raw hsz
  have hlt := GetSegmentSize_lt sm
  have hb : (SegmentData.ctor L seg_id sm now raw).segSize_ < UINT32 := by omega
  obtain ⟨hI, i4⟩ := run_Inv L hL ops _ c1 hb
  have hb2 : ((SegmentData.ctor L seg_id sm now raw).run L ops).segSize_ < UINT32 := by omega
  obtain ⟨_, a2, a3, a4, _, _⟩ := Put_accepted L hL _ slice header hI hb2 hacc
  obtain ⟨f1, f2, f3, f4⟩ := Put_frame L ((SegmentData.ctor L seg_id sm now raw).run L ops)
    slice header
  obtain ⟨k1, k2⟩ := ctor_run_keyNum L hL seg_id sm now raw hsz ops
  obtain ⟨m1, m2, _⟩ := run_spec L hL more _ hI hb2
  obtain ⟨i1, i2, i3⟩ := hI
  have hpos : 0 < L.sizeofDataHeader := hL.1
  refine ⟨?_, ?_, ?_, f2, f1, f3, f4, m1, m2⟩
  · intro h4
    rcases a2 with ⟨b1, _, _, _, _⟩ | ⟨_, b3, b4, _⟩
    · rw [h4] at b1; exact absurd b1 (by simp)
    · exact ⟨by omega, b4⟩
  · intro h4
    rcases a2 with ⟨_, _, b3, b4, _⟩ | ⟨b1, _, _, _⟩
    · exact ⟨by omega, by omega, b3⟩
    · rw [h4] at b1; exact absurd b1 (by simp)
  · rw [a4]
    apply Nat.mod_eq_of_lt
    rcases a2 with ⟨_, _, b3, b4, _⟩ | ⟨_, b3, b4, _⟩ <;>
      unfold UINT32 at * <;> omega

/-- Instance of the amended C15: an aligned record accepted after the example calls on a
fresh 32768-byte segment. -/
theorem C15_accepted_Put_frame_witness :
    exLayout.WF ∧ exLayout.sizeofSegmentOnDisk ≤ SegmentManager.GetSegmentSize { segSize := 32768 } ∧
      (((exSeg 32768).run exLayout exOps).Put exLayout (exSlice 4096 1)
        (exHeader 4096)).1 = true ∧
      (((exSeg 32768).run exLayout exOps).Put exLayout (exSlice 4096 1)
          (exHeader 4096)).2.keyNum_
        = ((exSeg 32768).run exLayout exOps).keyNum_ + 1 ∧
      ((exSlice 4096 1).Is4KData = true →
        (((exSeg 32768).run exLayout exOps).Put exLayout (exSlice 4096 1)
            (exHeader 4096)).2.tailPos_
          = ((exSeg 32768).run exLayout exOps).tailPos_ - 4096 ∧
        4096 ≤ ((exSeg 32768).run exLayout exOps).tailPos_ ∧
        (((exSeg 32768).run exLayout exOps).Put exLayout (exSlice 4096 1)
            (exHeader 4096)).2.headPos_
          = ((exSeg 32768).run exLayout exOps).headPos_ + exLayout.sizeofDataHeader) :=
  have r := C15_accepted_Put_frame exLayout (by decide) 1 { segSize := 32768 } 0
    (fun _ => 170) (by decide) exOps (exSlice 4096 1) (exHeader 4096) (by decide) []
  ⟨by decide, by decide, by decide, r.2.2.1, r.2.1⟩

/-! ## SegmentSlice -/

/-- C16, as the code refutes it: for a slice whose digest has not been computed `Put`
dereferences the `NULL` digest pointer, and for a 100-byte value put into a
`SegmentSlice` over 64-byte segments the payload offset 64 is not inside the 64-byte
buffer: the payload bytes are copied outside it and the occupied length is 164. -/
theorem C16_Put_needs_a_digest_and_room :
    (exKV 5).GetDigest = none ∧
      (SegmentSlice.ctor 1 exManager (fun _ => 170)).Put exLayout (fun _ => 0) (exKV 5)
        (exHeader 0) = none ∧
      ((SegmentSlice.ctor 1 { segSize := 64 } (fun _ => 170)).Put exLayout (fun _ => 0)
          ((exKV 100).ComputeDigest exEngine).slice (exHeader 0)).map
        (fun r => (r.2.1.m_seg_size, r.2.2.1.data_offset, r.2.2.1.data_size, r.2.1.m_len,
          r.2.2.2))
        = some (64, 64, 100, 164, false) := by
  refine ⟨rfl, rfl, by decide⟩

/-- C16, amended: for every slice whose digest pointer is set and whose record fits the
segment, `sizeof(SegmentOnDisk) + sizeof(DataHeader)` + data length at most `m_seg_size`,
`SegmentSlice::Put` returns true, stays inside the buffer and fills the header with the
slice's digest, payload size = data length, payload offset =
`sizeof(SegmentOnDisk) + sizeof(DataHeader)` and next-header offset = payload offset +
payload size; the buffer then holds the segment header, that record header at offset
`sizeof(SegmentOnDisk)` and the payload at the payload offset, all below `m_seg_size`,
and the occupied length `m_len` equals the next-header offset. -/
theorem C16_SegmentSlice_Put_layout (L : Layout) (ss : SegmentSlice) (seg_ondisk : Mem)
    (slice : KVSlice) (header : DataHeader) (digest : Kvdb_Digest)
    (hd : slice.GetDigest = some digest) (hseg : ss.m_seg_size < UINT32)
    (hfit : L.sizeofSegmentOnDisk + L.sizeofDataHeader + slice.GetDataLen
      ≤ ss.m_seg_size) :
    ∃ (ss1 : SegmentSlice) (header1 : DataHeader),
      ss.Put L seg_ondisk slice header = some (true, ss1, header1, true) ∧
      header1.key_digest = digest ∧
      header1.data_size = slice.GetDataLen ∧
      header1.data_offset = L.sizeofSegmentOnDisk + L.sizeofDataHeader ∧
      header1.next_header_offset = header1.data_offset + header1.data_size ∧
      ss1.m_len = header1.next_header_offset ∧
      ss1.m_seg_size = ss.m_seg_size ∧
      ss1.m_len ≤ ss1.m_seg_size ∧
      (∀ i, i < L.sizeofSegmentOnDisk → ss1.m_data i = seg_ondisk i) ∧
      (∀ i, i < L.sizeofDataHeader →
        L.sizeofSegmentOnDisk + i < ss1.m_seg_size ∧
        ss1.m_data (L.sizeofSegmentOnDisk + i) = L.headerBytes header1 i) ∧
      (∀ i, i < header1.data_size →
        header1.data_offset + i < ss1.m_seg_size ∧
        ss1.m_data (header1.data_offset + i) = slice.GetData.bytes i) := by
  have e1 : L.sizeofSegmentOnDisk % UINT32 = L.sizeofSegmentOnDisk :=
    Nat.mod_eq_of_lt (by omega)
  have e2 : (L.sizeofSegmentOnDisk + L.sizeofDataHeader) % UINT32
      = L.sizeofSegmentOnDisk + L.sizeofDataHeader := Nat.mod_eq_of_lt (by omega)
  have e3 : (L.sizeofSegmentOnDisk + L.sizeofDataHeader + slice.GetDataLen) % UINT32
      = L.sizeofSegmentOnDisk + L.sizeofDataHeader + slice.GetDataLen :=
    Nat.mod_eq_of_lt (by omega)
  have a1 : inAllocation ss.m_seg_size 0 L.sizeofSegmentOnDisk = true := by
    simp only [inAllocation, decide_eq_true_eq]
    omega
  have a2 : inAllocation ss.m_seg_size L.sizeofSegmentOnDisk L.sizeofDataHeader = true := by
    simp only [inAllocation, decide_eq_true_eq]
    omega
  have a3 : inAllocation ss.m_seg_size (L.sizeofSegmentOnDisk + L.sizeofDataHeader)
      slice.GetDataLen = true := by
    simp only [inAllocation, decide_eq_true_eq]
    omega
  unfold SegmentSlice.Put
  rw [hd]
  simp only [e1, e2, e3, a1, a2, a3, Bool.and_self]
  refine ⟨_, _, rfl, rfl, rfl, rfl, rfl, rfl, rfl, ?_, ?_, ?_, ?_⟩
  · exact hfit
  · intro i hi
    simp only
    rw [memcpy_outside _ _ _ _ _ (by omega), memcpy_outside _ _ _ _ _ (by omega)]
    have := memcpy_inside ss.m_data seg_ondisk 0 L.sizeofSegmentOnDisk i hi
    rwa [Nat.zero_add] at this
  · intro i hi
    simp only
    refine ⟨by omega, ?_⟩
    rw [memcpy_outside _ _ _ _ _ (by omega), memcpy_inside _ _ _ _ _ hi]
  · intro i hi
    simp only at hi ⊢
    refine ⟨by omega, ?_⟩
    rw [memcpy_inside _ _ _ _ _ hi]

/-- Instance of the amended C16: a 5-byte value under a three-byte key, its digest
computed, put into a fresh `SegmentSlice` over 8192-byte segments. -/
theorem C16_SegmentSlice_Put_layout_witness :
    ((exKV 5).ComputeDigest exEngine).slice.GetDigest = some { value := [65, 66, 67] } ∧
      (SegmentSlice.ctor 1 exManager (fun _ => 170)).m_seg_size < UINT32 ∧
      exLayout.sizeofSegmentOnDisk + exLayout.sizeofDataHeader
          + ((exKV 5).ComputeDigest exEngine).slice.GetDataLen
        ≤ (SegmentSlice.ctor 1 exManager (fun _ => 170)).m_seg_size ∧
      ∃ (ss1 : SegmentSlice) (header1 : DataHeader),
        (SegmentSlice.ctor 1 exManager (fun _ => 170)).Put exLayout (fun _ => 0)
            ((exKV 5).ComputeDigest exEngine).slice (exHeader 0)
          = some (true, ss1, header1, true) ∧
        header1.key_digest = { value := [65, 66, 67] } ∧
        header1.data_size = ((exKV 5).ComputeDigest exEngine).slice.GetDataLen ∧
        header1.data_offset = exLayout.sizeofSegmentOnDisk + exLayout.sizeofDataHeader ∧
        header1.next_header_offset = header1.data_offset + header1.data_size ∧
        ss1.m_len = header1.next_header_offset ∧
        ss1.m_seg_size = (SegmentSlice.ctor 1 exManager (fun _ => 170)).m_seg_size ∧
        ss1.m_len ≤ ss1.m_seg_size ∧
        (∀ i, i < exLayout.sizeofSegmentOnDisk → ss1.m_data i = (fun _ => 0) i) ∧
        (∀ i, i < exLayout.sizeofDataHeader →
          exLayout.sizeofSegmentOnDisk + i < ss1.m_seg_size ∧
          ss1.m_data (exLayout.sizeofSegmentOnDisk + i) = exLayout.headerBytes header1 i) ∧
        (∀ i, i < header1.data_size →
          header1.data_offset + i < ss1.m_seg_size ∧
          ss1.m_data (header1.data_offset + i)
            = ((exKV 5).ComputeDigest exEngine).slice.GetData.bytes i) :=
  ⟨by decide, by decide, by decide,
    C16_SegmentSlice_Put_layout exLayout (SegmentSlice.ctor 1 exManager (fun _ => 170))
      (fun _ => 0) ((exKV 5).ComputeDigest exEngine).slice (exHeader 0)
      { value := [65, 66, 67] } (by decide) (by decide) (by decide)⟩

/-- C17, evaluated on the code: a 100-byte value put into a `SegmentSlice` over 64-byte
segments is accepted (`Put` returns true), with occupied length 164 beyond the segment
size 64, and byte 100, outside the 64-byte buffer, is written with payload byte 36. -/
theorem C17_SegmentSlice_Put_has_no_size_check :
    ((SegmentSlice.ctor 1 { segSize := 64 } (fun _ => 170)).Put exLayout (fun _ => 0)
        ((exKV 100).ComputeDigest exEngine).slice (exHeader 0)).map
      (fun r => (r.1, r.2.1.m_len, r.2.1.m_seg_size, r.2.1.m_data 100))
      = some (true, 164, 64, 36) ∧
      (SegmentSlice.ctor 1 { segSize := 64 } (fun _ => 170)).m_data 100 = 170 := by
  decide

end kvdb
